import Mathlib

/-!
Shallow embedding of pgvector's `src/hnswinsert.c` (HNSW on-disk insertion
write-back engine) and verification of its specification claims.

The C source under verification is `src/hnswinsert.c`.  Helper macros and
functions that live in `hnsw.h` / `hnswutils.c` (absent from the provided
sources) are modelled from the specification where needed; each such
definition carries a doc comment saying so.

Machine integers: block numbers are 32-bit unsigned (`BlockNumber`), offset
numbers are 16-bit unsigned (`OffsetNumber`), sizes are `Size` (unsigned).
They are modelled as `Nat`; the C constant `InvalidBlockNumber = 0xFFFFFFFF`
and `InvalidOffsetNumber = 0` are kept literally.  Overflow does not occur on
the code paths modelled here except for one `Size` subtraction, which is
modelled with an explicit `% 2^64` (see `freeSpaceFits`).
-/

namespace HnswInsert

/-- `InvalidBlockNumber` from PostgreSQL block.h: `0xFFFFFFFF`. -/
def InvalidBlockNumber : Nat := 4294967295

/-- `BlockNumberIsValid`. -/
def BlockNumberIsValid (b : Nat) : Bool := b != InvalidBlockNumber

/-- `InvalidOffsetNumber` is 0; `FirstOffsetNumber` is 1. -/
def InvalidOffsetNumber : Nat := 0

/-- `FirstOffsetNumber` from PostgreSQL off.h. -/
def FirstOffsetNumber : Nat := 1

/-- `ItemPointerData`: a (block number, offset number) pair. -/
structure ItemPointerData where
  blkno : Nat
  offno : Nat
deriving DecidableEq, Repr

/-- The all-invalid item pointer (`ItemPointerSetInvalid`). -/
def InvalidItemPointer : ItemPointerData := ⟨InvalidBlockNumber, InvalidOffsetNumber⟩

/-- `ItemPointerIsValid`: the offset number is nonzero. -/
def ItemPointerIsValid (p : ItemPointerData) : Bool := p.offno != InvalidOffsetNumber

/-- `ItemPointerSet(p, blkno, offno)`. -/
def ItemPointerSet (blkno offno : Nat) : ItemPointerData := ⟨blkno, offno⟩

/-- `HnswGetLayerM(m, layer)`.  Modelled from the spec: "layer 0 reserves
`2m` slots, every layer above reserves `m` slots" (the macro itself lives in
`hnsw.h`, which is not among the provided sources). -/
def HnswGetLayerM (m lc : Nat) : Nat := if lc = 0 then m * 2 else m

/-- `HnswNeighborTuple`: `count` slots of index tids (flat array partitioned
into per-layer segments). -/
structure HnswNeighborTuple where
  count : Nat
  indextids : List ItemPointerData
deriving DecidableEq, Repr

/-- Read `ntup->indextids[i]` (C array read; reads beyond the allocated
array do not occur on the paths the claims exercise). -/
def getTid (ntup : HnswNeighborTuple) (i : Nat) : ItemPointerData :=
  ntup.indextids.getD i InvalidItemPointer

/-- Read `ntup->indextids[i]` at a C `int` index.  A negative index is C
undefined behaviour, which the callers in `UpdateNeighborPages` never
produce (the layer iterated over never exceeds the neighbor's level); the
model totalises it as the invalid pointer. -/
def getTidZ (ntup : HnswNeighborTuple) (i : Int) : ItemPointerData :=
  if 0 ≤ i then getTid ntup i.toNat else InvalidItemPointer

/-- The `idx == -2` scan of `UpdateNeighborPages` (hnswinsert.c:318-325):

    for (int i = 0; i < lm; i++)
      if (!ItemPointerIsValid(&ntup->indextids[startIdx + i]))
        idx = startIdx + i;

Note the loop has no `break`: `idx` is overwritten at every empty slot, so
the value left behind is the LAST empty slot of the segment (or -2 when the
segment has no empty slot). -/
def findFreeIdx (ntup : HnswNeighborTuple) (startIdx : Int) (lm : Nat) : Int :=
  (List.range lm).foldl
    (fun (acc : Int) (i : Nat) =>
      if ItemPointerIsValid (getTidZ ntup (startIdx + (i : Int))) then acc
      else startIdx + (i : Int))
    (-2)

/-- Index resolution of `UpdateNeighborPages` (hnswinsert.c:315-327):
`startIdx = (neighborLevel - lc) * m`; for the `-2` sentinel, run the
free-slot scan over the layer's segment; otherwise add `startIdx` to the
in-layer offset. -/
def resolveIdx (ntup : HnswNeighborTuple) (neighborLevel lc m : Nat) (idx0 : Int) : Int :=
  if idx0 = -2 then
    findFreeIdx ntup (((neighborLevel : Int) - (lc : Int)) * (m : Int)) (HnswGetLayerM m lc)
  else idx0 + ((neighborLevel : Int) - (lc : Int)) * (m : Int)

/-- One neighbor-candidate body of `UpdateNeighborPages` (hnswinsert.c:
299-346) after `HnswUpdateConnection` has produced `idx0 ≠ -1`
(`idx0 = -2` is the "any free slot" sentinel, `idx0 ≥ 0` a concrete offset
within the layer): resolve the absolute slot index, and if it lies within
`[0, ntup->count)` overwrite that slot with a pointer to the new element,
else do nothing (the generic XLog state is aborted).  Returns `some` of the
updated tuple on commit, `none` on abort. -/
def updateNeighborStep (ntup : HnswNeighborTuple) (neighborLevel lc m : Nat)
    (idx0 : Int) (eblkno eoffno : Nat) : Option HnswNeighborTuple :=
  if 0 ≤ resolveIdx ntup neighborLevel lc m idx0 ∧
      resolveIdx ntup neighborLevel lc m idx0 < (ntup.count : Int) then
    some { ntup with
      indextids := ntup.indextids.set (resolveIdx ntup neighborLevel lc m idx0).toNat
        (ItemPointerSet eblkno eoffno) }
  else
    none

/-- Per-layer padded segment of `lm` slots: slot `i` holds the `i`-th chosen
neighbor pointer when `i < length`, else the invalid pointer. -/
def padSeg (tids : List ItemPointerData) (lm : Nat) : List ItemPointerData :=
  (List.range lm).map fun i => tids.getD i InvalidItemPointer

/-- Concatenation of the per-layer segments for layers `lc, lc-1, ..., 0`
(the layout order of `HnswSetNeighborTuple`). -/
def buildSegs (nbrs : Nat → List ItemPointerData) (m : Nat) : Nat → List ItemPointerData
  | 0 => padSeg (nbrs 0) (HnswGetLayerM m 0)
  | lc + 1 => padSeg (nbrs (lc + 1)) (HnswGetLayerM m (lc + 1)) ++ buildSegs nbrs m lc

/-- `HnswSetNeighborTuple(ntup, e, m)`.  Modelled from the spec (the function
lives in `hnswutils.c`, absent from the provided sources): the neighbor tuple
is "a flat array of pointers ... logically partitioned into contiguous
per-layer segments sized `layerCapacity(level)`", laid out from the element's
top layer down to layer 0, unused slots invalid; `count` is the total number
of reserved slots, `(level + 2) * m`. -/
def HnswSetNeighborTuple (level m : Nat) (nbrs : Nat → List ItemPointerData) :
    HnswNeighborTuple :=
  { count := (level + 2) * m
    indextids := buildSegs nbrs m level }

/-- One neighbor-update request, as issued by `UpdateNeighborPages` against a
given neighbor tuple: layer `lc`, connection-update result `idx0`, and the
new element's tuple location. -/
structure UpdateReq where
  lc : Nat
  idx0 : Int
  eblkno : Nat
  eoffno : Nat
deriving DecidableEq, Repr

/-- Apply a sequence of neighbor-update steps to a neighbor tuple of an
element at level `level` (an aborted step leaves the tuple unchanged). -/
def applyUpdates (level m : Nat) (reqs : List UpdateReq) (ntup : HnswNeighborTuple) :
    HnswNeighborTuple :=
  reqs.foldl
    (fun t r => (updateNeighborStep t level r.lc m r.idx0 r.eblkno r.eoffno).getD t) ntup

/-- Number of live (valid) pointers in the layer-`lc` segment of a neighbor
tuple belonging to an element at level `level`. -/
def layerLive (ntup : HnswNeighborTuple) (level m lc : Nat) : Nat :=
  ((List.range (HnswGetLayerM m lc)).map
    (fun i => getTid ntup ((level - lc) * m + i))).countP (ItemPointerIsValid ·)

/-- `HNSW_HEAPTIDS`, the fixed capacity of an element tuple's
duplicate-reference list.  Modelled from the spec ("duplicate-reference list
(fixed capacity)"); the constant lives in `hnsw.h`, absent from the provided
sources, where it is 10. -/
def HNSW_HEAPTIDS : Nat := 10

/-- `HnswElementTuple`: the on-disk element record.  The vector payload is
modelled as a list of integers (its contents are opaque to hnswinsert.c
except for equality in duplicate detection). -/
structure HnswElementTuple where
  deleted : Bool
  vec : List Int
  heaptids : List ItemPointerData
  neighbortid : ItemPointerData
deriving DecidableEq, Repr

/-- `HnswAddDuplicate` (hnswinsert.c:356-401), reduced to its effect on the
duplicate element's tuple: scan `heaptids[0..HNSW_HEAPTIDS)` for the first
invalid slot (`i = HNSW_HEAPTIDS` when none); if `i == 0 || i == HNSW_HEAPTIDS`
abort the page transaction and report failure (`none`); otherwise write the
new element's heap tid into slot `i`, overwrite the tuple and commit. -/
def HnswAddDuplicate (etup : HnswElementTuple) (newtid : ItemPointerData) :
    Option HnswElementTuple :=
  let i := etup.heaptids.findIdx fun p => !ItemPointerIsValid p
  if i = 0 ∨ i = HNSW_HEAPTIDS then none
  else some { etup with heaptids := etup.heaptids.set i newtid }

/-!
A node-level view of the store for the insertion pipeline (`hnswinsert` →
`HnswInsertTuple` → `WriteElement`): one record per graph node (element
tuple), plus a counter of how many times neighbor propagation
(`UpdateNeighborPages`) ran.  Page layout is irrelevant to the claims served
by this view and is modelled separately below for the allocator claims.
-/

/-- The element tuples of the store, in creation order, plus a count of
`UpdateNeighborPages` invocations. -/
structure NodeStore where
  nodes : List HnswElementTuple
  propagations : Nat
deriving DecidableEq, Repr

/-- The empty store. -/
def emptyNodeStore : NodeStore := ⟨[], 0⟩

/-- A fresh element tuple holding one heap tid (`HnswInitElement` +
`HnswSetElementTuple` zero-fill: slot 0 is the tid, the rest invalid). -/
def mkElementTuple (v : List Int) (tid : ItemPointerData) : HnswElementTuple :=
  { deleted := false
    vec := v
    heaptids := (List.range HNSW_HEAPTIDS).map fun i => if i = 0 then tid else InvalidItemPointer
    neighbortid := InvalidItemPointer }

/-- Full insertion path (`WriteNewElementPages` + `UpdateNeighborPages`) at
the node level: append a new graph node and run neighbor propagation once. -/
def fullInsert (s : NodeStore) (v : List Int) (tid : ItemPointerData) : NodeStore :=
  { nodes := s.nodes ++ [mkElementTuple v tid]
    propagations := s.propagations + 1 }

/-- `HnswFindDuplicate(element)`.  Modelled from the spec (the function lives
in `hnswutils.c`, absent from the provided sources): `findExactDuplicate
(vector) → element reference | none` — the index of an existing element with
an identical vector, if any. -/
def HnswFindDuplicate (s : NodeStore) (v : List Int) : Option Nat :=
  s.nodes.findIdx? fun n => n.vec = v

/-- `WriteElement` (hnswinsert.c:406-435) at the node level: if a duplicate
was found and `HnswAddDuplicate` succeeds, the insertion is coalesced (no new
node, no neighbor propagation); otherwise the full insertion path runs.
Entry-point maintenance is modelled separately (see `writeElementEP`). -/
def WriteElement (s : NodeStore) (dup : Option Nat) (v : List Int)
    (tid : ItemPointerData) : NodeStore :=
  match dup with
  | some j =>
      match HnswAddDuplicate (s.nodes.getD j (mkElementTuple [] InvalidItemPointer)) tid with
      | some etup => { s with nodes := s.nodes.set j etup }
      | none => fullInsert s v tid
  | none => fullInsert s v tid

/-- `HnswInsertTuple` (hnswinsert.c:441-482) at the node level: build the
element, find a duplicate, write, and return `true`. -/
def HnswInsertTuple (s : NodeStore) (v : List Int) (tid : ItemPointerData) :
    Bool × NodeStore :=
  (true, WriteElement s (HnswFindDuplicate s v) v tid)

/-- `hnswinsert` (hnswinsert.c:487-517): skip nulls returning `false`;
otherwise run `HnswInsertTuple` (its result is discarded) and return
`false` (line 516). -/
def hnswinsert (s : NodeStore) (isnull : Bool) (v : List Int) (tid : ItemPointerData) :
    Bool × NodeStore :=
  if isnull then (false, s)
  else (false, (HnswInsertTuple s v tid).2)

/-- Insert the same vector repeatedly: `insertedK v k` is the node store
after `k` calls of `hnswinsert` with vector `v` and heap tids
`⟨0, 1⟩, ⟨0, 2⟩, ...`. -/
def insertedK (v : List Int) : Nat → NodeStore
  | 0 => emptyNodeStore
  | k + 1 => (hnswinsert (insertedK v k) false v ⟨0, k + 1⟩).2

/-- The duplicate-reference list after `k` coalesced references with tids
`⟨0, 1⟩ .. ⟨0, k⟩`. -/
def tidsK (k : Nat) : List ItemPointerData :=
  (List.range HNSW_HEAPTIDS).map fun i => if i < k then ⟨0, i + 1⟩ else InvalidItemPointer

/-!
Page-level model for the allocator claims.  A page holds a sequence of
items (element or neighbor tuples) addressed by 1-based offset numbers,
tracks its remaining free space, and links to the next page in the chain.
Block 0 is the meta page; data pages have block numbers `1 .. pages.length`
(`pages[i]` is block `i + 1`).  `sizeof(ItemIdData)` is 4.
-/

/-- `sizeof(ItemIdData)`. -/
def itemIdSize : Nat := 4

/-- A stored tuple: element or neighbor, distinguished as by
`HnswIsElementTuple` on the tuple's type tag. -/
inductive StoredTuple where
  | element (t : HnswElementTuple)
  | neighbor (t : HnswNeighborTuple)
deriving DecidableEq, Repr

/-- A line-pointer slot: stored length (`ItemIdGetLength`) plus the tuple. -/
structure HnswItem where
  len : Nat
  tup : StoredTuple
deriving DecidableEq, Repr

/-- Default item (reading a nonexistent slot, which the C code never does on
the modelled paths). -/
def defaultItem : HnswItem := ⟨0, .element ⟨false, [], [], InvalidItemPointer⟩⟩

/-- A data page. -/
structure Page where
  items : List HnswItem
  space : Nat
  nextblkno : Nat
deriving DecidableEq, Repr

/-- The store: data pages plus the meta page's insert cursor.  `pageCap` is
the free space of a freshly initialized page (`HnswInitPage`), a constant of
the page layout. -/
structure PageStore where
  pages : List Page
  insertPage : Nat
  pageCap : Nat
deriving DecidableEq, Repr

/-- Read the data page at a block number (block 0 is the meta page, not a
data page; an unknown block reads as an empty page). -/
def getPage (s : PageStore) (blk : Nat) : Page :=
  if blk = 0 then ⟨[], 0, InvalidBlockNumber⟩
  else s.pages.getD (blk - 1) ⟨[], 0, InvalidBlockNumber⟩

/-- Replace the data page at a block number. -/
def setPage (s : PageStore) (blk : Nat) (pg : Page) : PageStore :=
  if blk = 0 then s else { s with pages := s.pages.set (blk - 1) pg }

/-- `PageGetItem(page, PageGetItemId(page, offno))` at a 1-based offset. -/
def getItem (pg : Page) (offno : Nat) : HnswItem :=
  pg.items.getD (offno - 1) defaultItem

/-- The free-space test of `HnswFreeOffset` (hnswinsert.c:76):
`PageGetFreeSpace(*npage) + ItemIdGetLength(itemid) - sizeof(ItemIdData)
>= ntupSize`, computed in the unsigned 64-bit `Size` type (the subtraction
wraps modulo `2^64`, kept explicitly). -/
def freeSpaceFits (space itemLen ntupSize : Nat) : Bool :=
  decide (ntupSize ≤ (space + itemLen + (18446744073709551616 - itemIdSize)) % 18446744073709551616)

/-- Result of `HnswFreeOffset`: out-parameters `freeOffno`,
`freeNeighborOffno` (0 = invalid when not found), the neighbor page chosen
(`*nbuf`), and the threaded `firstFreePage`. -/
structure FreeScan where
  found : Bool
  freeOffno : Nat
  freeNeighborOffno : Nat
  nblk : Nat
  firstFreePage : Nat
deriving DecidableEq, Repr

/-- The item scan inside `HnswFreeOffset` (hnswinsert.c:42-85): walk the
page's items from `offno`; skip neighbor tuples and live element tuples; on
a deleted element tuple record its neighbor page as `firstFreePage` if none
was recorded yet, then test whether the neighbor tuple's page can absorb the
new neighbor tuple; on success return that slot pair, else keep scanning. -/
def freeOffsetScan (s : PageStore) (ntupSize : Nat) :
    List HnswItem → Nat → Nat → FreeScan
  | [], _, ffp => ⟨false, 0, 0, 0, ffp⟩
  | it :: rest, offno, ffp =>
    match it.tup with
    | .neighbor _ => freeOffsetScan s ntupSize rest (offno + 1) ffp
    | .element etup =>
      if etup.deleted then
        let nbPage := etup.neighbortid.blkno
        let nbOff := etup.neighbortid.offno
        let ffp2 := if BlockNumberIsValid ffp then ffp else nbPage
        let npage := getPage s nbPage
        if freeSpaceFits npage.space (getItem npage nbOff).len ntupSize then
          ⟨true, offno, nbOff, nbPage, ffp2⟩
        else
          freeOffsetScan s ntupSize rest (offno + 1) ffp2
      else
        freeOffsetScan s ntupSize rest (offno + 1) ffp

/-- `HnswFreeOffset` (hnswinsert.c:37-88). -/
def HnswFreeOffset (s : PageStore) (blk : Nat) (ntupSize ffp : Nat) : FreeScan :=
  freeOffsetScan s ntupSize (getPage s blk).items FirstOffsetNumber ffp

/-- `HnswInsertAppendPage` (hnswinsert.c:94-107): allocate and initialize a
new page at the end of the relation and link it from `fromBlk`.  Returns the
new store and the new page's block number. -/
def HnswInsertAppendPage (s : PageStore) (fromBlk : Nat) : PageStore × Nat :=
  let newBlk := s.pages.length + 1
  let s1 : PageStore := { s with pages := s.pages ++ [⟨[], s.pageCap, InvalidBlockNumber⟩] }
  (setPage s1 fromBlk { getPage s1 fromBlk with nextblkno := newBlk }, newBlk)

/-- Outcome of the page-search loop of `WriteNewElementPages`
(hnswinsert.c:146-217): resulting store (all page appends commit), element
page (`buf`), neighbor page (`nbuf`), the reused slots (0 = none), and the
threaded `firstFreePage`. -/
structure LoopResult where
  s : PageStore
  ebuf : Nat
  nbuf : Nat
  freeOffno : Nat
  freeNeighborOffno : Nat
  firstFreePage : Nat
  ok : Bool
deriving Repr

/-- The page-search loop of `WriteNewElementPages` (hnswinsert.c:146-217),
with fuel bounding the chain traversal (the caller passes enough fuel to
walk every page of an acyclic chain; `ok = false` marks fuel exhaustion, a
model artifact — the C loop keeps walking).  Branches, in source order:
(1) room for both tuples on the current page; (2) room for the element
tuple on the last page of the chain — append one page for the neighbor
tuple; (3) a deleted element tuple's slots can be reused; (4) advance to
the next page, or append a new tail page (plus a second page when the
fresh page cannot hold both). -/
def writeLoop (etupSize ntupSize : Nat) :
    Nat → PageStore → Nat → Nat → LoopResult
  | 0, s, blk, ffp => ⟨s, blk, blk, 0, 0, ffp, false⟩
  | fuel + 1, s, blk, ffp =>
    let combined := etupSize + ntupSize + itemIdSize
    let pg := getPage s blk
    if combined ≤ pg.space then
      ⟨s, blk, blk, 0, 0, ffp, true⟩
    else if etupSize ≤ pg.space ∧ BlockNumberIsValid pg.nextblkno = false then
      let a := HnswInsertAppendPage s blk
      ⟨a.1, blk, a.2, 0, 0, ffp, true⟩
    else
      let r := HnswFreeOffset s blk ntupSize ffp
      if r.found then
        ⟨s, blk, r.nblk, r.freeOffno, r.freeNeighborOffno, r.firstFreePage, true⟩
      else if BlockNumberIsValid pg.nextblkno then
        writeLoop etupSize ntupSize fuel s pg.nextblkno r.firstFreePage
      else
        let a := HnswInsertAppendPage s blk
        if (getPage a.1 a.2).space < combined then
          let b := HnswInsertAppendPage a.1 a.2
          ⟨b.1, a.2, b.2, 0, 0, r.firstFreePage, true⟩
        else
          ⟨a.1, a.2, a.2, 0, 0, r.firstFreePage, true⟩

/-- Where the new element landed, as reported through `e->blkno`,
`e->offno`, `e->neighborPage`, `e->neighborOffno`, plus the loop facts the
meta-page decision reads.  `base` is the store as the search loop left it
(before the tuple writes). -/
structure Placement where
  base : PageStore
  blkno : Nat
  offno : Nat
  neighborPage : Nat
  neighborOffno : Nat
  reused : Bool
  firstFreePage : Nat
  ok : Bool
deriving Repr

/-- `PageAddItem` (append path): the new item takes offset
`items.length + 1` and consumes its length plus one line pointer of free
space. -/
def addItemToPage (pg : Page) (it : HnswItem) : Page :=
  { pg with items := pg.items ++ [it], space := pg.space - (it.len + itemIdSize) }

/-- `PageIndexTupleOverwrite`: replace the item at a 1-based offset in
place, adjusting free space by the length difference. -/
def overwriteItem (pg : Page) (offno : Nat) (it : HnswItem) : Page :=
  { pg with
      items := pg.items.set (offno - 1) it
      space := pg.space + (getItem pg offno).len - it.len }

/-- Slot choice after the search loop (hnswinsert.c:224-236): the reused
tombstone slots when a free offset was found, else fresh append positions
(element at `maxoffno + 1`; the neighbor right after it when both tuples
share a page, else `FirstOffsetNumber` on the fresh neighbor page). -/
def chooseOffs (r : LoopResult) : Nat × Nat :=
  if r.freeOffno ≠ 0 then (r.freeOffno, r.freeNeighborOffno)
  else
    ((getPage r.s r.ebuf).items.length + 1,
      if r.nbuf = r.ebuf then (getPage r.s r.ebuf).items.length + 2 else FirstOffsetNumber)

/-- The tuple writes of `WriteNewElementPages` (hnswinsert.c:241-256):
`PageIndexTupleOverwrite` of both slots when reusing a tombstone, else
`PageAddItem` appends on the element page and the neighbor page. -/
def placeTuples (rs : PageStore) (ebuf nbuf offno noffno : Nat) (reuse : Bool)
    (eItem nItem : HnswItem) : PageStore :=
  if reuse then
    setPage (setPage rs ebuf (overwriteItem (getPage rs ebuf) offno eItem)) nbuf
      (overwriteItem
        (getPage (setPage rs ebuf (overwriteItem (getPage rs ebuf) offno eItem)) nbuf)
        noffno nItem)
  else
    setPage (setPage rs ebuf (addItemToPage (getPage rs ebuf) eItem)) nbuf
      (addItemToPage
        (getPage (setPage rs ebuf (addItemToPage (getPage rs ebuf) eItem)) nbuf) nItem)

/-- The insert-cursor decision of `WriteNewElementPages` (hnswinsert.c:
267-269): advance the meta page's cursor to the final neighbor page when it
differs from the original cursor and either no reuse happened
(`!OffsetNumberIsValid(freeOffno)`) or the first freed page recorded equals
the new cursor. -/
def updateCursor (s1 : PageStore) (insertPage2 originalInsertPage freeOffno
    firstFreePage : Nat) : PageStore :=
  if insertPage2 ≠ originalInsertPage ∧ (freeOffno = 0 ∨ firstFreePage = insertPage2) then
    { s1 with insertPage := insertPage2 }
  else s1

/-- `WriteNewElementPages` (hnswinsert.c:113-270).  `e` is the in-memory
element's tuple image before the neighbor-tuple location is stamped;
`etupSize`/`ntupSize` stand for `HNSW_ELEMENT_TUPLE_SIZE(dim)` /
`HNSW_NEIGHBOR_TUPLE_SIZE(level, m)` (macros from `hnsw.h`, absent from the
provided sources; the code uses them only as opaque sizes).  After the
search loop: compute the slot numbers (reused slots, or fresh append
positions), stamp `etup->neighbortid`, write both tuples (overwrite when
reusing, append otherwise), and advance the meta page's insert cursor
(hnswinsert.c:268). -/
def WriteNewElementPages (s : PageStore) (e : HnswElementTuple) (level m : Nat)
    (nbrs : Nat → List ItemPointerData) (etupSize ntupSize : Nat) :
    PageStore × Placement :=
  let r := writeLoop etupSize ntupSize (s.pages.length + 1) s s.insertPage InvalidBlockNumber
  let offs := chooseOffs r
  let s1 := placeTuples r.s r.ebuf r.nbuf offs.1 offs.2 (r.freeOffno != 0)
    ⟨etupSize, .element { e with neighbortid := ItemPointerSet r.nbuf offs.2 }⟩
    ⟨ntupSize, .neighbor (HnswSetNeighborTuple level m nbrs)⟩
  (updateCursor s1 r.nbuf s.insertPage r.freeOffno r.firstFreePage,
    ⟨r.s, r.ebuf, offs.1, r.nbuf, offs.2, r.freeOffno != 0, r.firstFreePage, r.ok⟩)

/-- Store well-formedness used by the reuse claim: every deleted element
tuple's stamped neighbor-tuple location resolves to an existing
neighbor-kind item on a data page (spec: "every element tuple's stamped
neighbor-tuple location resolves to a real neighbor tuple on some page"). -/
def wfTids (s : PageStore) : Bool :=
  s.pages.all fun pg =>
    pg.items.all fun it =>
      match it.tup with
      | .neighbor _ => true
      | .element etup =>
          !etup.deleted ||
            (decide (1 ≤ etup.neighbortid.blkno) &&
             decide (1 ≤ etup.neighbortid.offno) &&
             decide (etup.neighbortid.offno ≤ (getPage s etup.neighbortid.blkno).items.length) &&
             match (getItem (getPage s etup.neighbortid.blkno) etup.neighbortid.offno).tup with
             | .neighbor _ => true
             | .element _ => false)

/-!
Entry-point maintenance model (`WriteElement`, hnswinsert.c:420-434).
-/

/-- Observable outcome of `WriteElement`'s entry-point maintenance for a
non-duplicate element: whether the entry point was re-read
(`HnswGetEntryPoint`, line 424), total invocations of `HnswInsertElement`
and of `UpdateNeighborPages` for this insertion (one of each has already
happened, at hnswinsert.c:473 and 418), and whether the element was
installed as the new entry point (`HnswUpdateMetaPage`, line 433). -/
structure EPResult where
  epReread : Bool
  insertRuns : Nat
  updateRuns : Nat
  installedSelf : Bool
deriving DecidableEq, Repr

/-- Entry-point maintenance (hnswinsert.c:421-434): when there was no entry
point, or the new element's level exceeds the entry point's level, re-read
the entry point; if none existed before but one exists now, re-run
`HnswInsertElement` against it and redo `UpdateNeighborPages` (one retry);
otherwise install this element as the entry point.  Entry points are
represented by their levels. -/
def writeElementEP (entryPoint : Option Nat) (elemLevel : Nat)
    (newEntryPoint : Option Nat) : EPResult :=
  let trigger : Bool :=
    match entryPoint with
    | none => true
    | some epLevel => decide (epLevel < elemLevel)
  if trigger then
    match entryPoint, newEntryPoint with
    | none, some _ => ⟨true, 2, 2, false⟩
    | _, _ => ⟨true, 1, 1, true⟩
  else ⟨false, 1, 1, false⟩

/-- Concrete neighbor tuple used by the claim-1 witness. -/
def w1Nbr : HnswNeighborTuple := ⟨3, [⟨7, 7⟩, InvalidItemPointer, InvalidItemPointer]⟩

/-- Concrete neighbor tuple used by the claim-4 witness. -/
def w4Nbr : HnswNeighborTuple := ⟨2, [InvalidItemPointer, InvalidItemPointer]⟩

/-- Concrete one-page store used by the claim-4 witness. -/
def w4Store : PageStore := ⟨[⟨[⟨20, .neighbor w4Nbr⟩], 5, InvalidBlockNumber⟩], 1, 100⟩

/-- Concrete full neighbor tuple used by the claim-10 witness. -/
def w10Nbr : HnswNeighborTuple := ⟨2, [⟨3, 1⟩, ⟨3, 2⟩]⟩

/-- Concrete one-page store used by the claim-10 witness. -/
def w10Store : PageStore := ⟨[⟨[⟨20, .neighbor w10Nbr⟩], 5, InvalidBlockNumber⟩], 1, 100⟩

/-- Concrete element tuple with two live duplicate references, used by the
claim-8 witness. -/
def w8Etup : HnswElementTuple := ⟨false, [1], tidsK 2, InvalidItemPointer⟩

/-- Tombstoned element tuple (claim-7 witness): deleted, its neighbor tuple
at block 1 offset 2. -/
def w7Tomb : HnswElementTuple := ⟨true, [3], [], ⟨1, 2⟩⟩

/-- The tombstone's old neighbor tuple (claim-7 witness). -/
def w7OldNbr : HnswNeighborTuple := ⟨2, [InvalidItemPointer, InvalidItemPointer]⟩

/-- One-page store holding the tombstone and its neighbor tuple, with too
little free space for a direct fit (claim-7 witness). -/
def w7Store : PageStore :=
  ⟨[⟨[⟨30, .element w7Tomb⟩, ⟨40, .neighbor w7OldNbr⟩], 2, InvalidBlockNumber⟩], 1, 100⟩

/-- The new element inserted by the claim-7 witness. -/
def w7New : HnswElementTuple := ⟨false, [7], [⟨0, 1⟩], InvalidItemPointer⟩

/-- The claim-7 witness run: insert `w7New` (element size 30, neighbor
size 38) into `w7Store`. -/
def w7Run : PageStore × Placement := WriteNewElementPages w7Store w7New 0 1 (fun _ => []) 30 38

/-- The per-candidate page transaction of `UpdateNeighborPages`
(hnswinsert.c:304-348) as a page-store transformer: lock and register the
neighbor's neighbor-tuple page, read the tuple at `nbrOff` (`ntupSize =
ItemIdGetLength(itemid)`), resolve and bound-check the slot index
(`updateNeighborStep`); on success overwrite the tuple in place and commit,
on failure abort the generic XLog state, leaving the store unchanged.  The
C code casts the item to `HnswNeighborTuple` unchecked; on the modelled
paths the slot always holds a neighbor tuple, so the element branch is
unreachable and modelled as no effect. -/
def UpdateNeighborOnPage (s : PageStore) (nbrPage nbrOff : Nat)
    (neighborLevel lc m : Nat) (idx0 : Int) (eblkno eoffno : Nat) : PageStore :=
  let itm := getItem (getPage s nbrPage) nbrOff
  match itm.tup with
  | .element _ => s
  | .neighbor ntup =>
    match updateNeighborStep ntup neighborLevel lc m idx0 eblkno eoffno with
    | some ntup2 =>
        setPage s nbrPage (overwriteItem (getPage s nbrPage) nbrOff ⟨itm.len, .neighbor ntup2⟩)
    | none => s

end HnswInsert

namespace HnswInsert

/-- Auxiliary: the last index `i < lm` whose slot `startIdx + i` is empty,
as an option.  Used only to state properties of `findFreeIdx`. -/
def lastEmptyOffset (ntup : HnswNeighborTuple) (startIdx : Int) (lm : Nat) : Option Nat :=
  (List.range lm).foldl
    (fun (acc : Option Nat) (i : Nat) =>
      if ItemPointerIsValid (getTidZ ntup (startIdx + (i : Int))) then acc else some i)
    none

theorem findFreeIdx_succ (ntup : HnswNeighborTuple) (startIdx : Int) (lm : Nat) :
    findFreeIdx ntup startIdx (lm + 1) =
      if ItemPointerIsValid (getTidZ ntup (startIdx + (lm : Int))) then
        findFreeIdx ntup startIdx lm
      else startIdx + (lm : Int) := by
  unfold findFreeIdx
  rw [List.range_succ, List.foldl_append]
  simp

theorem findFreeIdx_of_no_empty (ntup : HnswNeighborTuple) (startIdx : Int) (lm : Nat)
    (h : ∀ i < lm, ItemPointerIsValid (getTidZ ntup (startIdx + (i : Int))) = true) :
    findFreeIdx ntup startIdx lm = -2 := by
  induction lm with
  | zero => rfl
  | succ n ih =>
    rw [findFreeIdx_succ, if_pos (h n (Nat.lt_succ_self n))]
    exact ih fun i hi => h i (Nat.lt_succ_of_lt hi)

theorem findFreeIdx_of_empty (ntup : HnswNeighborTuple) (startIdx : Int) (lm : Nat)
    (h : ∃ i < lm, ItemPointerIsValid (getTidZ ntup (startIdx + (i : Int))) = false) :
    ∃ j < lm, ItemPointerIsValid (getTidZ ntup (startIdx + (j : Int))) = false ∧
      (∀ i < lm, ItemPointerIsValid (getTidZ ntup (startIdx + (i : Int))) = false → i ≤ j) ∧
      findFreeIdx ntup startIdx lm = startIdx + (j : Int) := by
  induction lm with
  | zero => obtain ⟨i, hi, _⟩ := h; omega
  | succ n ih =>
    by_cases hn : ItemPointerIsValid (getTidZ ntup (startIdx + (n : Int))) = false
    · refine ⟨n, Nat.lt_succ_self n, hn, fun i hi _ => Nat.lt_succ_iff.mp hi, ?_⟩
      rw [findFreeIdx_succ, if_neg (by simp [hn])]
    · obtain ⟨i, hi, hemp⟩ := h
      have hin : i < n := by
        rcases Nat.lt_succ_iff_lt_or_eq.mp hi with h1 | h1
        · exact h1
        · subst h1; exact absurd hemp (by simpa using hn)
      obtain ⟨j, hj, hjemp, hjmax, hjval⟩ := ih ⟨i, hin, hemp⟩
      refine ⟨j, Nat.lt_succ_of_lt hj, hjemp, ?_, ?_⟩
      · intro k hk hkemp
        rcases Nat.lt_succ_iff_lt_or_eq.mp hk with h1 | h1
        · exact hjmax k h1 hkemp
        · subst h1; exact absurd hkemp (by simpa using hn)
      · rw [findFreeIdx_succ, if_pos (by simpa using hn)]
        exact hjval

theorem getTidZ_natCast (ntup : HnswNeighborTuple) (n : Nat) :
    getTidZ ntup (n : Int) = getTid ntup n := by
  simp [getTidZ]

theorem startIdx_natCast (lvl lc m : Nat) (h : lc ≤ lvl) :
    ((lvl : Int) - (lc : Int)) * (m : Int) = (((lvl - lc) * m : Nat) : Int) := by
  push_cast [h]
  ring

/-- C1: in the sentinel path (`idx == -2`), the scan over the layer segment
has no `break` (hnswinsert.c:322-324), so when the segment holds at least
one empty slot the slot that receives the pointer to the new element is the
empty slot with the LARGEST offset within the segment, not the smallest. -/
theorem claim1_sentinel_writes_last_empty_slot (ntup : HnswNeighborTuple)
    (lvl lc m eb eo : Nat) (hlc : lc ≤ lvl)
    (hseg : (lvl - lc) * m + HnswGetLayerM m lc ≤ ntup.count)
    (hemp : ∃ i < HnswGetLayerM m lc,
      ItemPointerIsValid (getTid ntup ((lvl - lc) * m + i)) = false) :
    ∃ j < HnswGetLayerM m lc,
      ItemPointerIsValid (getTid ntup ((lvl - lc) * m + j)) = false ∧
      (∀ i < HnswGetLayerM m lc,
        ItemPointerIsValid (getTid ntup ((lvl - lc) * m + i)) = false → i ≤ j) ∧
      updateNeighborStep ntup lvl lc m (-2) eb eo =
        some { ntup with
                indextids := ntup.indextids.set ((lvl - lc) * m + j) (ItemPointerSet eb eo) } := by
  have hcast : ∀ i : Nat,
      getTidZ ntup ((((lvl - lc) * m : Nat) : Int) + (i : Int)) =
        getTid ntup ((lvl - lc) * m + i) := by
    intro i
    rw [← Nat.cast_add, getTidZ_natCast]
  obtain ⟨j, hj, hjemp, hjmax, hjval⟩ :=
    findFreeIdx_of_empty ntup (((lvl - lc) * m : Nat) : Int) (HnswGetLayerM m lc)
      (by obtain ⟨i, hi, he⟩ := hemp; exact ⟨i, hi, by rw [hcast]; exact he⟩)
  refine ⟨j, hj, by rw [← hcast]; exact hjemp,
    fun i hi he => hjmax i hi (by rw [hcast]; exact he), ?_⟩
  have hlt : (((lvl - lc) * m : Nat) : Int) + (j : Int) < (ntup.count : Int) := by
    exact_mod_cast Nat.lt_of_lt_of_le (Nat.add_lt_add_left hj _) hseg
  unfold updateNeighborStep resolveIdx
  rw [if_pos rfl, startIdx_natCast lvl lc m hlc, hjval]
  rw [if_pos ⟨by positivity, hlt⟩, ← Nat.cast_add, Int.toNat_natCast]

/-- C1 witness: a concrete neighbor tuple with empty slots, where the
theorem applies. -/
theorem claim1_witness :
    (0 : Nat) ≤ 1 ∧
    (1 - 0) * 1 + HnswGetLayerM 1 0 ≤ w1Nbr.count ∧
    (∃ i < HnswGetLayerM 1 0,
      ItemPointerIsValid (getTid w1Nbr ((1 - 0) * 1 + i)) = false) ∧
    ∃ j < HnswGetLayerM 1 0,
      ItemPointerIsValid (getTid w1Nbr ((1 - 0) * 1 + j)) = false ∧
      (∀ i < HnswGetLayerM 1 0,
        ItemPointerIsValid (getTid w1Nbr ((1 - 0) * 1 + i)) = false → i ≤ j) ∧
      updateNeighborStep w1Nbr 1 0 1 (-2) 5 9 =
        some { w1Nbr with indextids := w1Nbr.indextids.set ((1 - 0) * 1 + j) (ItemPointerSet 5 9) } :=
  ⟨by decide, by decide, by decide,
    claim1_sentinel_writes_last_empty_slot w1Nbr 1 0 1 5 9 (by decide) (by decide) (by decide)⟩

/-- C1 counterexample: with both slots of a layer-0 segment empty, the slot
written is offset 1, while the claim as stated requires the first (smallest)
empty offset, 0. -/
theorem claim1_counterexample :
    updateNeighborStep ⟨2, [InvalidItemPointer, InvalidItemPointer]⟩ 0 0 1 (-2) 5 7 =
      some ⟨2, [InvalidItemPointer, ItemPointerSet 5 7]⟩ ∧
    ItemPointerIsValid (getTid ⟨2, [InvalidItemPointer, InvalidItemPointer]⟩ 0) = false := by
  constructor
  · rfl
  · decide

/-- C4: when the new element still qualifies at a concrete offset
(`idx0 ≥ 0`), the absolute slot index is `idx0 + (neighborLevel - lc) * m`;
if it lies within the tuple's `count` slots the slot is overwritten with the
new element's location and the page transaction commits, otherwise the
transaction aborts and the page store is unchanged. -/
theorem claim4_neighbor_index_bound_check (s : PageStore) (nbrPage nbrOff lvl lc m : Nat)
    (idx0 : Int) (eb eo : Nat) (ntup : HnswNeighborTuple)
    (hit : (getItem (getPage s nbrPage) nbrOff).tup = .neighbor ntup)
    (hoff : 0 ≤ idx0) :
    ((0 ≤ idx0 + ((lvl : Int) - (lc : Int)) * (m : Int) ∧
        idx0 + ((lvl : Int) - (lc : Int)) * (m : Int) < (ntup.count : Int)) →
      UpdateNeighborOnPage s nbrPage nbrOff lvl lc m idx0 eb eo =
        setPage s nbrPage (overwriteItem (getPage s nbrPage) nbrOff
          ⟨(getItem (getPage s nbrPage) nbrOff).len,
           .neighbor { ntup with
             indextids := ntup.indextids.set
               (idx0 + ((lvl : Int) - (lc : Int)) * (m : Int)).toNat
               (ItemPointerSet eb eo) }⟩)) ∧
    (¬(0 ≤ idx0 + ((lvl : Int) - (lc : Int)) * (m : Int) ∧
        idx0 + ((lvl : Int) - (lc : Int)) * (m : Int) < (ntup.count : Int)) →
      UpdateNeighborOnPage s nbrPage nbrOff lvl lc m idx0 eb eo = s) := by
  have hne : idx0 ≠ -2 := by omega
  have hstep : updateNeighborStep ntup lvl lc m idx0 eb eo =
      if 0 ≤ idx0 + ((lvl : Int) - (lc : Int)) * (m : Int) ∧
          idx0 + ((lvl : Int) - (lc : Int)) * (m : Int) < (ntup.count : Int) then
        some { ntup with
          indextids := ntup.indextids.set
            (idx0 + ((lvl : Int) - (lc : Int)) * (m : Int)).toNat (ItemPointerSet eb eo) }
      else none := by
    unfold updateNeighborStep resolveIdx
    rw [if_neg hne]
  constructor
  · intro hin
    simp only [UpdateNeighborOnPage, hit, hstep, if_pos hin]
  · intro hout
    simp only [UpdateNeighborOnPage, hit, hstep, if_neg hout]

/-- C4 witness: a store holding one neighbor tuple, updated in bounds. -/
theorem claim4_witness :
    (getItem (getPage w4Store 1) 1).tup = .neighbor w4Nbr ∧
    (0 : Int) ≤ 1 ∧
    ((0 : Int) ≤ 1 + ((0 : Int) - (0 : Int)) * (1 : Int) ∧
      1 + ((0 : Int) - (0 : Int)) * (1 : Int) < (w4Nbr.count : Int)) ∧
    UpdateNeighborOnPage w4Store 1 1 0 0 1 1 4 6 =
      setPage w4Store 1 (overwriteItem (getPage w4Store 1) 1
        ⟨(getItem (getPage w4Store 1) 1).len,
         .neighbor { w4Nbr with
                     indextids := w4Nbr.indextids.set
                       (1 + ((0 : Int) - (0 : Int)) * (1 : Int)).toNat
                       (ItemPointerSet 4 6) }⟩) :=
  ⟨by decide, by decide, by decide,
    (claim4_neighbor_index_bound_check w4Store 1 1 0 0 1 1 4 6 w4Nbr
      (by decide) (by decide)).1 (by decide)⟩

/-- C10: in the sentinel path, when the neighbor's layer segment has no
empty slot, the index stays `-2`, the bound check `idx >= 0` fails, the
page transaction is aborted, and the page store is unchanged — the inbound
edge is silently skipped. -/
theorem claim10_sentinel_no_slot_abort (s : PageStore) (nbrPage nbrOff : Nat)
    (ntup : HnswNeighborTuple) (lvl lc m eb eo : Nat)
    (hit : (getItem (getPage s nbrPage) nbrOff).tup = .neighbor ntup)
    (hlc : lc ≤ lvl)
    (hfull : ∀ i < HnswGetLayerM m lc,
      ItemPointerIsValid (getTid ntup ((lvl - lc) * m + i)) = true) :
    resolveIdx ntup lvl lc m (-2) = -2 ∧
    updateNeighborStep ntup lvl lc m (-2) eb eo = none ∧
    UpdateNeighborOnPage s nbrPage nbrOff lvl lc m (-2) eb eo = s := by
  have hres : resolveIdx ntup lvl lc m (-2) = -2 := by
    unfold resolveIdx
    rw [if_pos rfl, startIdx_natCast lvl lc m hlc]
    refine findFreeIdx_of_no_empty ntup _ _ fun i hi => ?_
    rw [← Nat.cast_add, getTidZ_natCast]
    exact hfull i hi
  have hstep : updateNeighborStep ntup lvl lc m (-2) eb eo = none := by
    unfold updateNeighborStep
    rw [hres, if_neg (by rintro ⟨h0, -⟩; omega)]
  refine ⟨hres, hstep, ?_⟩
  simp only [UpdateNeighborOnPage, hit, hstep]

/-- C10 witness: a full layer-0 segment; the update aborts. -/
theorem claim10_witness :
    (getItem (getPage w10Store 1) 1).tup = .neighbor w10Nbr ∧
    (0 : Nat) ≤ 0 ∧
    (∀ i < HnswGetLayerM 1 0,
      ItemPointerIsValid (getTid w10Nbr ((0 - 0) * 1 + i)) = true) ∧
    updateNeighborStep w10Nbr 0 0 1 (-2) 5 5 = none ∧
    UpdateNeighborOnPage w10Store 1 1 0 0 1 (-2) 5 5 = w10Store :=
  ⟨by decide, by decide, by decide,
    (claim10_sentinel_no_slot_abort w10Store 1 1 w10Nbr 0 0 1 5 5
      (by decide) (by decide) (by decide)).2⟩

theorem length_padSeg (tids : List ItemPointerData) (lm : Nat) :
    (padSeg tids lm).length = lm := by
  simp [padSeg]

theorem length_buildSegs (nbrs : Nat → List ItemPointerData) (m : Nat) :
    ∀ lvl, (buildSegs nbrs m lvl).length = (lvl + 2) * m
  | 0 => by
    simp [buildSegs, length_padSeg, HnswGetLayerM]
    ring
  | lvl + 1 => by
    simp only [buildSegs, List.length_append, length_padSeg, HnswGetLayerM,
      length_buildSegs nbrs m lvl, if_neg (Nat.succ_ne_zero lvl)]
    ring

theorem updateNeighborStep_preserves (t : HnswNeighborTuple) (lvl lc m : Nat) (i0 : Int)
    (eb eo : Nat) (t2 : HnswNeighborTuple)
    (h : updateNeighborStep t lvl lc m i0 eb eo = some t2) :
    t2.count = t.count ∧ t2.indextids.length = t.indextids.length := by
  unfold updateNeighborStep at h
  split at h
  · injection h with h2
    subst h2
    exact ⟨rfl, List.length_set _ _ _⟩
  · exact absurd h (by simp)

theorem applyUpdates_count_length (lvl m : Nat) (reqs : List UpdateReq) :
    ∀ t : HnswNeighborTuple,
      (applyUpdates lvl m reqs t).count = t.count ∧
      (applyUpdates lvl m reqs t).indextids.length = t.indextids.length := by
  induction reqs with
  | nil => exact fun t => ⟨rfl, rfl⟩
  | cons r rs ih =>
    intro t
    have hstep : applyUpdates lvl m (r :: rs) t =
        applyUpdates lvl m rs ((updateNeighborStep t lvl r.lc m r.idx0 r.eblkno r.eoffno).getD t) :=
      rfl
    rw [hstep]
    obtain ⟨hc, hl⟩ := ih ((updateNeighborStep t lvl r.lc m r.idx0 r.eblkno r.eoffno).getD t)
    match h : updateNeighborStep t lvl r.lc m r.idx0 r.eblkno r.eoffno with
    | some t2 =>
      obtain ⟨pc, pl⟩ := updateNeighborStep_preserves t lvl r.lc m r.idx0 r.eblkno r.eoffno t2 h
      rw [h] at hc hl
      simp only [Option.getD_some] at hc hl
      exact ⟨hc.trans pc, hl.trans pl⟩
    | none =>
      rw [h] at hc hl
      simpa using ⟨hc, hl⟩

theorem layerLive_le (t : HnswNeighborTuple) (lvl m lc : Nat) :
    layerLive t lvl m lc ≤ HnswGetLayerM m lc := by
  unfold layerLive
  calc _ ≤ ((List.range (HnswGetLayerM m lc)).map
        (fun i => getTid t ((lvl - lc) * m + i))).length := List.countP_le_length _
  _ = HnswGetLayerM m lc := by simp

theorem seg_within (lvl m lc : Nat) (h : lc ≤ lvl) :
    (lvl - lc) * m + HnswGetLayerM m lc ≤ (lvl + 2) * m := by
  unfold HnswGetLayerM
  split
  · rename_i h0
    subst h0
    simp only [Nat.sub_zero]
    exact Nat.le_of_eq (by ring)
  · calc (lvl - lc) * m + m = (lvl - lc + 1) * m := by ring
    _ ≤ (lvl + 2) * m := Nat.mul_le_mul_right m (by omega)

/-- C9: the element write reserves exactly `layerCapacity` slots per layer
(`count = (level + 2) * m` in total, each layer's segment lying inside the
counted slots), and any sequence of neighbor updates preserves the slot
count and array length and never pushes a layer above `layerCapacity` live
pointers. -/
theorem claim9_capacity_bound (level m : Nat) (nbrs : Nat → List ItemPointerData)
    (reqs : List UpdateReq) :
    (applyUpdates level m reqs (HnswSetNeighborTuple level m nbrs)).count = (level + 2) * m ∧
    (applyUpdates level m reqs (HnswSetNeighborTuple level m nbrs)).indextids.length =
      (level + 2) * m ∧
    (∀ lc, lc ≤ level →
      (level - lc) * m + HnswGetLayerM m lc ≤
        (applyUpdates level m reqs (HnswSetNeighborTuple level m nbrs)).count) ∧
    (∀ lc, layerLive (applyUpdates level m reqs (HnswSetNeighborTuple level m nbrs)) level m lc ≤
      HnswGetLayerM m lc) := by
  obtain ⟨hc, hl⟩ := applyUpdates_count_length level m reqs (HnswSetNeighborTuple level m nbrs)
  have hc0 : (HnswSetNeighborTuple level m nbrs).count = (level + 2) * m := rfl
  have hl0 : (HnswSetNeighborTuple level m nbrs).indextids.length = (level + 2) * m :=
    length_buildSegs nbrs m level
  refine ⟨hc.trans hc0, hl.trans hl0, ?_, fun lc => layerLive_le _ _ _ _⟩
  intro lc hlc
  rw [hc.trans hc0]
  exact seg_within level m lc hlc

/-- C9 witness: a level-1 tuple with `m = 1`, one sentinel update applied. -/
theorem claim9_witness :
    (applyUpdates 1 1 [⟨0, -2, 3, 4⟩] (HnswSetNeighborTuple 1 1 fun _ => [⟨2, 1⟩])).count = 3 ∧
    (applyUpdates 1 1 [⟨0, -2, 3, 4⟩]
      (HnswSetNeighborTuple 1 1 fun _ => [⟨2, 1⟩])).indextids.length = 3 ∧
    (0 ≤ 1 ∧ (1 - 0) * 1 + HnswGetLayerM 1 0 ≤
      (applyUpdates 1 1 [⟨0, -2, 3, 4⟩] (HnswSetNeighborTuple 1 1 fun _ => [⟨2, 1⟩])).count) ∧
    layerLive (applyUpdates 1 1 [⟨0, -2, 3, 4⟩]
      (HnswSetNeighborTuple 1 1 fun _ => [⟨2, 1⟩])) 1 1 0 ≤ HnswGetLayerM 1 0 := by
  have h := claim9_capacity_bound 1 1 (fun _ => [⟨2, 1⟩]) [⟨0, -2, 3, 4⟩]
  exact ⟨h.1, h.2.1, ⟨by decide, h.2.2.1 0 (by decide)⟩, h.2.2.2 0⟩

/-- C8: the duplicate coalescer reports "not a duplicate" exactly when slot
0 of the duplicate-reference list is unused or the list is full; in those
cases the write is aborted with no effect and `WriteElement` falls through
to the full insertion path; in every other case the new reference goes into
the first empty slot and the transaction commits. -/
theorem claim8_duplicate_abort_conditions (etup : HnswElementTuple) (tid : ItemPointerData)
    (hlen : etup.heaptids.length = HNSW_HEAPTIDS) :
    (HnswAddDuplicate etup tid = none ↔
      (ItemPointerIsValid (etup.heaptids.getD 0 InvalidItemPointer) = false ∨
        ∀ k < HNSW_HEAPTIDS,
          ItemPointerIsValid (etup.heaptids.getD k InvalidItemPointer) = true)) ∧
    (∀ (s : NodeStore) (j : Nat) (v : List Int),
      HnswAddDuplicate (s.nodes.getD j (mkElementTuple [] InvalidItemPointer)) tid = none →
        WriteElement s (some j) v tid = fullInsert s v tid) ∧
    (HnswAddDuplicate etup tid ≠ none →
      ∃ i, 0 < i ∧ i < HNSW_HEAPTIDS ∧
        ItemPointerIsValid (etup.heaptids.getD i InvalidItemPointer) = false ∧
        (∀ k < i, ItemPointerIsValid (etup.heaptids.getD k InvalidItemPointer) = true) ∧
        HnswAddDuplicate etup tid =
          some { etup with heaptids := etup.heaptids.set i tid }) := by
  have hpos : 0 < etup.heaptids.length := by rw [hlen]; decide
  have hgetD : ∀ k (h : k < HNSW_HEAPTIDS),
      etup.heaptids.getD k InvalidItemPointer = etup.heaptids.get ⟨k, by omega⟩ := by
    intro k hk
    rw [List.getD_eq_getElem _ _ (by omega)]
    rfl
  have hcond : List.findIdx (fun p => !ItemPointerIsValid p) etup.heaptids = 0 ∨
      List.findIdx (fun p => !ItemPointerIsValid p) etup.heaptids = HNSW_HEAPTIDS ↔
      (ItemPointerIsValid (etup.heaptids.getD 0 InvalidItemPointer) = false ∨
        ∀ k < HNSW_HEAPTIDS,
          ItemPointerIsValid (etup.heaptids.getD k InvalidItemPointer) = true) := by
    constructor
    · rintro (h0 | hfull)
      · left
        rw [hgetD 0 (by decide), List.get_eq_getElem]
        have := @List.findIdx_getElem _ (fun p => !ItemPointerIsValid p) etup.heaptids
          (by rw [h0]; exact hpos)
        simp only [h0] at this
        simpa using this
      · right
        intro k hk
        have hk2 : k < List.findIdx (fun p => !ItemPointerIsValid p) etup.heaptids := by
          omega
        have := List.not_of_lt_findIdx hk2
        rw [hgetD k hk, List.get_eq_getElem]
        simpa using this
    · rintro (h0 | hfull)
      · left
        by_contra hne
        have hlt : 0 < List.findIdx (fun p => !ItemPointerIsValid p) etup.heaptids := by
          omega
        have := List.not_of_lt_findIdx hlt
        rw [hgetD 0 (by decide), List.get_eq_getElem] at h0
        simp [h0] at this
      · right
        rw [← hlen]
        rw [List.findIdx_eq_length]
        intro x hx
        obtain ⟨k, hk, rfl⟩ := List.getElem_of_mem hx
        have := hfull k (by omega)
        rw [hgetD k (by omega), List.get_eq_getElem] at this
        simp [this]
  constructor
  · rw [← hcond]
    unfold HnswAddDuplicate
    constructor
    · intro h
      by_contra hc
      rw [if_neg hc] at h
      exact Option.noConfusion h
    · intro h
      rw [if_pos h]
  constructor
  · intro s j v h
    simp only [WriteElement, h]
  · intro hne
    unfold HnswAddDuplicate at hne ⊢
    by_cases hc : List.findIdx (fun p => !ItemPointerIsValid p) etup.heaptids = 0 ∨
        List.findIdx (fun p => !ItemPointerIsValid p) etup.heaptids = HNSW_HEAPTIDS
    · rw [if_pos hc] at hne
      exact absurd rfl hne
    · push_neg at hc
      have hle := @List.findIdx_le_length _ (fun p => !ItemPointerIsValid p) etup.heaptids
      rw [hlen] at hle
      refine ⟨List.findIdx (fun p => !ItemPointerIsValid p) etup.heaptids,
        by omega, by omega, ?_, ?_, ?_⟩
      · rw [hgetD _ (by omega), List.get_eq_getElem]
        have := @List.findIdx_getElem _ (fun p => !ItemPointerIsValid p) etup.heaptids
          (by omega)
        simpa using this
      · intro k hk
        have := List.not_of_lt_findIdx hk
        rw [hgetD k (by omega), List.get_eq_getElem]
        simpa using this
      · rw [if_neg (by omega)]

/-- C8 witness: a tuple with two live references; `HnswAddDuplicate`
neither sees an unused slot 0 nor a full list. -/
theorem claim8_witness :
    w8Etup.heaptids.length = HNSW_HEAPTIDS ∧
    (HnswAddDuplicate w8Etup ⟨0, 3⟩ ≠ none →
      ∃ i, 0 < i ∧ i < HNSW_HEAPTIDS ∧
        ItemPointerIsValid (w8Etup.heaptids.getD i InvalidItemPointer) = false ∧
        (∀ k < i, ItemPointerIsValid (w8Etup.heaptids.getD k InvalidItemPointer) = true) ∧
        HnswAddDuplicate w8Etup ⟨0, 3⟩ =
          some { w8Etup with heaptids := w8Etup.heaptids.set i ⟨0, 3⟩ }) ∧
    HnswAddDuplicate w8Etup ⟨0, 3⟩ ≠ none :=
  ⟨by decide, (claim8_duplicate_abort_conditions w8Etup ⟨0, 3⟩ (by decide)).2.2, by decide⟩

/-- C2 (amended): `hnswinsert` returns `false` for a null input, skipping
with no store mutation — and also returns `false` after a committed or
coalesced insertion (hnswinsert.c:516); its boolean is the index-AM
uniqueness-recheck flag, not a success indicator.  The success boolean
`true` is returned by the internal `HnswInsertTuple`, whose result
`hnswinsert` discards. -/
theorem claim2_insert_return_flags (s : NodeStore) (v : List Int) (tid : ItemPointerData) :
    hnswinsert s true v tid = (false, s) ∧
    (hnswinsert s false v tid).1 = false ∧
    (hnswinsert s false v tid).2 = (HnswInsertTuple s v tid).2 ∧
    (HnswInsertTuple s v tid).1 = true :=
  ⟨rfl, rfl, rfl, rfl⟩

/-- C2 counterexample: a non-null insertion that commits (the store gains a
node) still returns `false`, contradicting "for every non-null committed
insertion the returned boolean is success (true)". -/
theorem claim2_counterexample :
    (hnswinsert emptyNodeStore false [1] ⟨0, 1⟩).1 = false ∧
    (hnswinsert emptyNodeStore false [1] ⟨0, 1⟩).2 ≠ emptyNodeStore := by
  constructor
  · rfl
  · decide

/-- C5: after committing a non-duplicate element, the entry point is
re-read exactly when none existed or the element's level exceeds the entry
point's; if none existed but one now does, insertion and neighbor
propagation are redone (exactly one retry); in every other triggering case
the element is installed as the new entry point. -/
theorem claim5_entry_point_maintenance (ep : Option Nat) (lvl : Nat) (nep : Option Nat) :
    ((writeElementEP ep lvl nep).epReread = true ↔
      (ep = none ∨ ∃ epl, ep = some epl ∧ epl < lvl)) ∧
    (ep = none → ∀ n, nep = some n →
      writeElementEP ep lvl nep = ⟨true, 2, 2, false⟩) ∧
    ((ep = none ∨ ∃ epl, ep = some epl ∧ epl < lvl) → ¬(ep = none ∧ nep ≠ none) →
      (writeElementEP ep lvl nep).installedSelf = true ∧
      (writeElementEP ep lvl nep).insertRuns = 1 ∧
      (writeElementEP ep lvl nep).updateRuns = 1) ∧
    (writeElementEP ep lvl nep).insertRuns ≤ 2 ∧
    (writeElementEP ep lvl nep).updateRuns ≤ 2 := by
  unfold writeElementEP
  cases ep with
  | none =>
    cases nep with
    | none => simp
    | some n => simp
  | some epl =>
    cases nep with
    | none => by_cases h : epl < lvl <;> simp [h]
    | some n => by_cases h : epl < lvl <;> simp [h]

/-- C5 witness: an existing lower-level entry point; the element is
installed as the new entry point with no retry. -/
theorem claim5_witness :
    ((some 0 : Option Nat) = none ∨ ∃ epl, (some 0 : Option Nat) = some epl ∧ epl < 1) ∧
    ¬((some 0 : Option Nat) = none ∧ (none : Option Nat) ≠ none) ∧
    (writeElementEP (some 0) 1 none).installedSelf = true ∧
    (writeElementEP (some 0) 1 none).insertRuns = 1 ∧
    (writeElementEP (some 0) 1 none).updateRuns = 1 := by
  have h := (claim5_entry_point_maintenance (some 0) 1 none).2.2.1
    (Or.inr ⟨0, rfl, by decide⟩) (by simp)
  exact ⟨Or.inr ⟨0, rfl, by decide⟩, by simp, h.1, h.2.1, h.2.2⟩

theorem findDup_single (v : List Int) (h : List ItemPointerData) (n : ItemPointerData)
    (p : Nat) :
    HnswFindDuplicate ⟨[⟨false, v, h, n⟩], p⟩ v = some 0 := by
  simp [HnswFindDuplicate, List.findIdx?_cons]

theorem tidsK_findIdx : ∀ k, k ≤ 10 →
    List.findIdx (fun q => !ItemPointerIsValid q) (tidsK k) = k := by decide

theorem tidsK_set : ∀ k, 1 ≤ k → k < 10 →
    (tidsK k).set k ⟨0, k + 1⟩ = tidsK (k + 1) := by decide

theorem coalesce_step (v : List Int) (n : Nat) (h1 : 1 ≤ n) (h2 : n < 10) :
    (hnswinsert ⟨[⟨false, v, tidsK n, InvalidItemPointer⟩], 1⟩ false v ⟨0, n + 1⟩).2 =
      ⟨[⟨false, v, tidsK (n + 1), InvalidItemPointer⟩], 1⟩ := by
  have hdup : HnswAddDuplicate ⟨false, v, tidsK n, InvalidItemPointer⟩ ⟨0, n + 1⟩ =
      some ⟨false, v, tidsK (n + 1), InvalidItemPointer⟩ := by
    unfold HnswAddDuplicate
    rw [show (⟨false, v, tidsK n, InvalidItemPointer⟩ : HnswElementTuple).heaptids = tidsK n
      from rfl]
    rw [tidsK_findIdx n (by omega), if_neg (by unfold HNSW_HEAPTIDS; omega),
      tidsK_set n h1 h2]
  show (HnswInsertTuple ⟨[⟨false, v, tidsK n, InvalidItemPointer⟩], 1⟩ v ⟨0, n + 1⟩).2 = _
  unfold HnswInsertTuple WriteElement
  rw [findDup_single]
  simp only [List.getD_cons_zero, hdup]
  rfl

theorem insertedK_inv (v : List Int) : ∀ k, 1 ≤ k → k ≤ 10 →
    insertedK v k = ⟨[⟨false, v, tidsK k, InvalidItemPointer⟩], 1⟩ := by
  intro k
  induction k with
  | zero => omega
  | succ n ih =>
    intro h1 h2
    by_cases hn : n = 0
    · subst hn
      show (hnswinsert emptyNodeStore false v ⟨0, 0 + 1⟩).2 = _
      show (HnswInsertTuple emptyNodeStore v ⟨0, 1⟩).2 = _
      unfold HnswInsertTuple WriteElement HnswFindDuplicate
      simp only [emptyNodeStore, List.findIdx?_nil]
      unfold fullInsert
      simp only [List.nil_append]
      refine congrArg (fun l => NodeStore.mk l 1) ?_
      refine congrArg (fun t => [t]) ?_
      unfold mkElementTuple
      refine congrArg (fun l => HnswElementTuple.mk false v l InvalidItemPointer) ?_
      decide
    · have hstep : insertedK v (n + 1) = (hnswinsert (insertedK v n) false v ⟨0, n + 1⟩).2 :=
        rfl
      rw [hstep, ih (by omega) (by omega)]
      exact coalesce_step v n (by omega) (by omega)

/-- C3: inserting the same vector `k ≤ HNSW_HEAPTIDS` times yields exactly
one graph node carrying `k` live duplicate references and a single neighbor
propagation (the coalesced insertions perform none); the `(k+1)`-th
identical insertion creates a second node through the full insertion
path. -/
theorem claim3_duplicate_coalescing (v : List Int) :
    (∀ k, 1 ≤ k → k ≤ HNSW_HEAPTIDS →
      (insertedK v k).nodes.length = 1 ∧
      ((insertedK v k).nodes.getD 0 (mkElementTuple [] InvalidItemPointer)).heaptids.countP
        (fun q => ItemPointerIsValid q) = k ∧
      (insertedK v k).propagations = 1) ∧
    (insertedK v (HNSW_HEAPTIDS + 1)).nodes.length = 2 ∧
    (insertedK v (HNSW_HEAPTIDS + 1)).propagations = 2 := by
  have hinv := insertedK_inv v
  constructor
  · intro k h1 h2
    rw [hinv k h1 h2]
    refine ⟨rfl, ?_, rfl⟩
    have hcount : ∀ j, j ≤ 10 → (tidsK j).countP (fun q => ItemPointerIsValid q) = j := by
      decide
    simpa using hcount k h2
  · have h10 := hinv 10 (by omega) (by decide)
    have hdup11 : HnswAddDuplicate ⟨false, v, tidsK 10, InvalidItemPointer⟩ ⟨0, 11⟩ = none :=
      rfl
    have h11 : (hnswinsert ⟨[⟨false, v, tidsK 10, InvalidItemPointer⟩], 1⟩ false v ⟨0, 11⟩).2 =
        ⟨[⟨false, v, tidsK 10, InvalidItemPointer⟩, mkElementTuple v ⟨0, 11⟩], 2⟩ := by
      show (HnswInsertTuple ⟨[⟨false, v, tidsK 10, InvalidItemPointer⟩], 1⟩ v ⟨0, 11⟩).2 = _
      unfold HnswInsertTuple WriteElement
      rw [findDup_single]
      simp only [List.getD_cons_zero, hdup11]
      rfl
    have hstep : insertedK v (HNSW_HEAPTIDS + 1) =
        (hnswinsert (insertedK v 10) false v ⟨0, 11⟩).2 := rfl
    rw [hstep, h10, h11]
    exact ⟨rfl, rfl⟩

/-- C3 witness: three identical insertions of a concrete vector. -/
theorem claim3_witness :
    1 ≤ 3 ∧ 3 ≤ HNSW_HEAPTIDS ∧
    (insertedK [5] 3).nodes.length = 1 ∧
    ((insertedK [5] 3).nodes.getD 0 (mkElementTuple [] InvalidItemPointer)).heaptids.countP
      (fun q => ItemPointerIsValid q) = 3 ∧
    (insertedK [5] 3).propagations = 1 := by
  have h := (claim3_duplicate_coalescing [5]).1 3 (by decide) (by decide)
  exact ⟨by decide, by decide, h.1, h.2.1, h.2.2⟩

theorem setPage_insertPage (s : PageStore) (blk : Nat) (pg : Page) :
    (setPage s blk pg).insertPage = s.insertPage := by
  unfold setPage
  split <;> rfl

theorem setPage_pages_length (s : PageStore) (blk : Nat) (pg : Page) :
    (setPage s blk pg).pages.length = s.pages.length := by
  unfold setPage
  split
  · rfl
  · exact List.length_set _ _ _

theorem appendPage_insertPage (s : PageStore) (blk : Nat) :
    (HnswInsertAppendPage s blk).1.insertPage = s.insertPage := by
  unfold HnswInsertAppendPage
  rw [setPage_insertPage]

theorem appendPage_pages_length (s : PageStore) (blk : Nat) :
    (HnswInsertAppendPage s blk).1.pages.length = s.pages.length + 1 := by
  unfold HnswInsertAppendPage
  rw [setPage_pages_length]
  simp

theorem appendPage_newBlk (s : PageStore) (blk : Nat) :
    (HnswInsertAppendPage s blk).2 = s.pages.length + 1 := rfl

theorem writeLoop_insertPage (et nt : Nat) : ∀ (fuel : Nat) (s : PageStore) (blk ffp : Nat),
    (writeLoop et nt fuel s blk ffp).s.insertPage = s.insertPage := by
  intro fuel
  induction fuel with
  | zero => intro s blk ffp; rfl
  | succ n ih =>
    intro s blk ffp
    simp only [writeLoop]
    split
    · rfl
    · split
      · exact appendPage_insertPage s blk
      · split
        · rfl
        · split
          · exact ih s _ _
          · split
            · rw [appendPage_insertPage, appendPage_insertPage]
            · exact appendPage_insertPage s blk

theorem placeTuples_insertPage (rs : PageStore) (ebuf nbuf offno noffno : Nat) (reuse : Bool)
    (eI nI : HnswItem) :
    (placeTuples rs ebuf nbuf offno noffno reuse eI nI).insertPage = rs.insertPage := by
  unfold placeTuples
  split <;> rw [setPage_insertPage, setPage_insertPage]

/-- C6: the Meta Page's insert cursor is advanced to the final
neighbor-tuple page exactly when that page differs from the original
cursor and either no tombstoned slot was reused or the first freed page
recorded by the tombstone scans equals that page; otherwise the cursor is
unchanged (hnswinsert.c:268-269). -/
theorem claim6_insert_cursor_update (s : PageStore) (e : HnswElementTuple) (level m : Nat)
    (nbrs : Nat → List ItemPointerData) (etupSize ntupSize : Nat) :
    (WriteNewElementPages s e level m nbrs etupSize ntupSize).1.insertPage =
      if (WriteNewElementPages s e level m nbrs etupSize ntupSize).2.neighborPage ≠
            s.insertPage ∧
          ((WriteNewElementPages s e level m nbrs etupSize ntupSize).2.reused = false ∨
            (WriteNewElementPages s e level m nbrs etupSize ntupSize).2.firstFreePage =
              (WriteNewElementPages s e level m nbrs etupSize ntupSize).2.neighborPage) then
        (WriteNewElementPages s e level m nbrs etupSize ntupSize).2.neighborPage
      else s.insertPage := by
  simp only [WriteNewElementPages]
  set lr := writeLoop etupSize ntupSize (s.pages.length + 1) s s.insertPage InvalidBlockNumber
    with hlr
  have hreused : ((lr.freeOffno != 0) = false ∨
        lr.firstFreePage = lr.nbuf) ↔ (lr.freeOffno = 0 ∨ lr.firstFreePage = lr.nbuf) := by
    constructor
    · rintro (h | h)
      · left; simpa using h
      · right; exact h
    · rintro (h | h)
      · left; simp [h]
      · right; exact h
  unfold updateCursor
  by_cases hcond : lr.nbuf ≠ s.insertPage ∧ (lr.freeOffno = 0 ∨ lr.firstFreePage = lr.nbuf)
  · rw [if_pos hcond, if_pos ⟨hcond.1, hreused.mpr hcond.2⟩]
  · rw [if_neg hcond, if_neg (fun hc => hcond ⟨hc.1, hreused.mp hc.2⟩)]
    rw [placeTuples_insertPage]
    exact writeLoop_insertPage _ _ _ _ _ _

theorem getPage_out (s : PageStore) (blk : Nat) (h : blk = 0 ∨ s.pages.length < blk) :
    getPage s blk = ⟨[], 0, InvalidBlockNumber⟩ := by
  unfold getPage
  rcases h with h | h
  · rw [if_pos h]
  · rw [if_neg (by omega), List.getD_eq_getElem?_getD, List.getElem?_eq_none (by omega)]
    rfl

theorem getPage_bounds_of_space (s : PageStore) (blk : Nat)
    (h : 1 ≤ (getPage s blk).space) : 1 ≤ blk ∧ blk ≤ s.pages.length := by
  by_contra hc
  rw [getPage_out s blk (by omega)] at h
  exact absurd h (by decide)

theorem getPage_bounds_of_items (s : PageStore) (blk : Nat)
    (h : 1 ≤ (getPage s blk).items.length) : 1 ≤ blk ∧ blk ≤ s.pages.length := by
  by_contra hc
  rw [getPage_out s blk (by omega)] at h
  exact absurd h (by decide)

theorem getPage_setPage_ne (s : PageStore) (blk : Nat) (pg : Page) (blk2 : Nat)
    (h : blk2 ≠ blk) : getPage (setPage s blk pg) blk2 = getPage s blk2 := by
  unfold getPage setPage
  by_cases h0 : blk = 0
  · rw [if_pos h0]
  · rw [if_neg h0]
    by_cases h2 : blk2 = 0
    · rw [if_pos h2, if_pos h2]
    · rw [if_neg h2, if_neg h2]
      simp only []
      rw [List.getD_eq_getElem?_getD, List.getD_eq_getElem?_getD,
        List.getElem?_set_ne (by omega : blk - 1 ≠ blk2 - 1)]

theorem getPage_setPage_self (s : PageStore) (blk : Nat) (pg : Page)
    (h1 : 1 ≤ blk) (h2 : blk ≤ s.pages.length) :
    getPage (setPage s blk pg) blk = pg := by
  unfold getPage setPage
  rw [if_neg (by omega), if_neg (by omega)]
  simp only []
  rw [List.getD_eq_getElem?_getD,
    List.getElem?_set_self (by omega : blk - 1 < s.pages.length)]
  rfl

theorem setPage_out (s : PageStore) (blk : Nat) (pg : Page)
    (h : s.pages.length < blk) : setPage s blk pg = s := by
  unfold setPage
  by_cases h0 : blk = 0
  · rw [if_pos h0]
  · rw [if_neg h0]
    rw [List.set_eq_of_length_le (by omega)]

theorem getPage_setPage_length (s : PageStore) (blk : Nat) (pg : Page) (b : Nat)
    (hlen : pg.items.length = (getPage s blk).items.length) :
    (getPage (setPage s blk pg) b).items.length = (getPage s b).items.length := by
  by_cases hb : b = blk
  · subst hb
    by_cases hin : 1 ≤ b ∧ b ≤ s.pages.length
    · rw [getPage_setPage_self s b pg hin.1 hin.2, hlen]
    · by_cases h0 : b = 0
      · unfold setPage
        rw [if_pos h0]
      · rw [setPage_out s b pg (by omega)]
  · rw [getPage_setPage_ne s blk pg b hb]

theorem getPage_insertPage_irrel (s : PageStore) (x b : Nat) :
    getPage { s with insertPage := x } b = getPage s b := rfl

theorem getPage_append_last (s : PageStore) (pg : Page) :
    getPage { s with pages := s.pages ++ [pg] } (s.pages.length + 1) = pg := by
  unfold getPage
  rw [if_neg (by omega)]
  simp [List.getD_eq_getElem?_getD, List.getElem?_concat_length]

theorem getPage_appendNew (s : PageStore) (fromBlk : Nat) :
    (getPage (HnswInsertAppendPage s fromBlk).1 (HnswInsertAppendPage s fromBlk).2).items =
      [] := by
  unfold HnswInsertAppendPage
  simp only []
  by_cases he : fromBlk = s.pages.length + 1
  · have hsub : getPage { s with pages := s.pages ++ [⟨[], s.pageCap, InvalidBlockNumber⟩] }
        fromBlk = ⟨[], s.pageCap, InvalidBlockNumber⟩ := by
      rw [he]; exact getPage_append_last s _
    rw [he]
    rw [getPage_setPage_self _ _ _ (by omega) (by simp)]
    rw [← he, hsub]
  · rw [getPage_setPage_ne _ _ _ _ (fun hx => he hx.symm)]
    exact congrArg Page.items (getPage_append_last s _)

theorem overwriteItem_length (pg : Page) (off : Nat) (it : HnswItem) :
    (overwriteItem pg off it).items.length = pg.items.length :=
  List.length_set _ _ _

theorem getItem_overwrite_self (pg : Page) (off : Nat) (it : HnswItem)
    (h1 : 1 ≤ off) (h2 : off ≤ pg.items.length) :
    getItem (overwriteItem pg off it) off = it := by
  unfold getItem overwriteItem
  simp only []
  rw [List.getD_eq_getElem?_getD, List.getElem?_set_self (by omega : off - 1 < pg.items.length)]
  rfl

theorem getItem_overwrite_ne (pg : Page) (off : Nat) (it : HnswItem) (off2 : Nat)
    (h1 : 1 ≤ off) (h2 : 1 ≤ off2) (hne : off2 ≠ off) :
    getItem (overwriteItem pg off it) off2 = getItem pg off2 := by
  unfold getItem overwriteItem
  simp only []
  rw [List.getD_eq_getElem?_getD, List.getD_eq_getElem?_getD,
    List.getElem?_set_ne (by omega : off - 1 ≠ off2 - 1)]

theorem addItem_length (pg : Page) (it : HnswItem) :
    (addItemToPage pg it).items.length = pg.items.length + 1 := by
  unfold addItemToPage
  simp

theorem getItem_addItem_last (pg : Page) (it : HnswItem) :
    getItem (addItemToPage pg it) (pg.items.length + 1) = it := by
  unfold getItem addItemToPage
  simp [List.getD_eq_getElem?_getD, List.getElem?_concat_length]

theorem getItem_addItem_old (pg : Page) (it : HnswItem) (off : Nat)
    (h1 : 1 ≤ off) (h2 : off ≤ pg.items.length) :
    getItem (addItemToPage pg it) off = getItem pg off := by
  unfold getItem addItemToPage
  simp only []
  rw [List.getD_eq_getElem?_getD, List.getD_eq_getElem?_getD, List.getElem?_append]
  rw [if_pos (by omega)]

theorem freeOffsetScan_found (s : PageStore) (nt : Nat) :
    ∀ (items : List HnswItem) (offno ffp : Nat),
      (freeOffsetScan s nt items offno ffp).found = true →
      ∃ k, k < items.length ∧
        (freeOffsetScan s nt items offno ffp).freeOffno = offno + k ∧
        ∃ dtup, (items.getD k defaultItem).tup = .element dtup ∧
          dtup.deleted = true ∧
          dtup.neighbortid = ⟨(freeOffsetScan s nt items offno ffp).nblk,
            (freeOffsetScan s nt items offno ffp).freeNeighborOffno⟩ := by
  intro items
  induction items with
  | nil =>
    intro offno ffp h
    exact absurd h (by simp [freeOffsetScan])
  | cons it rest ih =>
    intro offno ffp h
    obtain ⟨len, tup⟩ := it
    cases tup with
    | neighbor ntp =>
      have hred : freeOffsetScan s nt (⟨len, .neighbor ntp⟩ :: rest) offno ffp =
          freeOffsetScan s nt rest (offno + 1) ffp := rfl
      rw [hred] at h ⊢
      obtain ⟨k, hk, hoff, dtup, ht, hd, hn⟩ := ih (offno + 1) ffp h
      refine ⟨k + 1, by simp only [List.length_cons]; omega, by rw [hoff]; omega, dtup,
        by simpa using ht, hd, hn⟩
    | element etup =>
      by_cases hdel : etup.deleted = true
      · by_cases hfit : freeSpaceFits (getPage s etup.neighbortid.blkno).space
            (getItem (getPage s etup.neighbortid.blkno) etup.neighbortid.offno).len nt = true
        · have hred : freeOffsetScan s nt (⟨len, .element etup⟩ :: rest) offno ffp =
              ⟨true, offno, etup.neighbortid.offno, etup.neighbortid.blkno,
                if BlockNumberIsValid ffp then ffp else etup.neighbortid.blkno⟩ := by
            simp only [freeOffsetScan]
            rw [if_pos hdel, if_pos hfit]
          rw [hred]
          exact ⟨0, by simp, by simp, etup, rfl, hdel, rfl⟩
        · have hred : freeOffsetScan s nt (⟨len, .element etup⟩ :: rest) offno ffp =
              freeOffsetScan s nt rest (offno + 1)
                (if BlockNumberIsValid ffp then ffp else etup.neighbortid.blkno) := by
            simp only [freeOffsetScan]
            rw [if_pos hdel, if_neg hfit]
          rw [hred] at h ⊢
          obtain ⟨k, hk, hoff, dtup, ht, hd, hn⟩ := ih _ _ h
          exact ⟨k + 1, by simp only [List.length_cons]; omega, by rw [hoff]; omega, dtup,
            by simpa using ht, hd, hn⟩
      · have hred : freeOffsetScan s nt (⟨len, .element etup⟩ :: rest) offno ffp =
            freeOffsetScan s nt rest (offno + 1) ffp := by
          simp only [freeOffsetScan]
          rw [if_neg hdel]
        rw [hred] at h ⊢
        obtain ⟨k, hk, hoff, dtup, ht, hd, hn⟩ := ih _ _ h
        exact ⟨k + 1, by simp only [List.length_cons]; omega, by rw [hoff]; omega, dtup,
          by simpa using ht, hd, hn⟩

theorem HnswFreeOffset_found (s : PageStore) (blk nt ffp : Nat)
    (h : (HnswFreeOffset s blk nt ffp).found = true) :
    1 ≤ (HnswFreeOffset s blk nt ffp).freeOffno ∧
    (HnswFreeOffset s blk nt ffp).freeOffno ≤ (getPage s blk).items.length ∧
    ∃ dtup, (getItem (getPage s blk) (HnswFreeOffset s blk nt ffp).freeOffno).tup =
        .element dtup ∧
      dtup.deleted = true ∧
      dtup.neighbortid = ⟨(HnswFreeOffset s blk nt ffp).nblk,
        (HnswFreeOffset s blk nt ffp).freeNeighborOffno⟩ := by
  obtain ⟨k, hk, hoff, dtup, ht, hd, hn⟩ :=
    freeOffsetScan_found s nt (getPage s blk).items FirstOffsetNumber ffp h
  have hoff2 : (HnswFreeOffset s blk nt ffp).freeOffno = 1 + k := hoff
  refine ⟨by omega, by omega, dtup, ?_, hd, hn⟩
  unfold getItem
  rw [hoff2, show 1 + k - 1 = k from by omega]
  exact ht

theorem writeLoop_reuse (et nt : Nat) : ∀ (fuel : Nat) (s : PageStore) (blk ffp : Nat),
    (writeLoop et nt fuel s blk ffp).freeOffno ≠ 0 →
    (writeLoop et nt fuel s blk ffp).s = s ∧
    1 ≤ (writeLoop et nt fuel s blk ffp).freeOffno ∧
    (writeLoop et nt fuel s blk ffp).freeOffno ≤
      (getPage s (writeLoop et nt fuel s blk ffp).ebuf).items.length ∧
    ∃ dtup, (getItem (getPage s (writeLoop et nt fuel s blk ffp).ebuf)
        (writeLoop et nt fuel s blk ffp).freeOffno).tup = .element dtup ∧
      dtup.deleted = true ∧
      dtup.neighbortid = ⟨(writeLoop et nt fuel s blk ffp).nbuf,
        (writeLoop et nt fuel s blk ffp).freeNeighborOffno⟩ := by
  intro fuel
  induction fuel with
  | zero => intro s blk ffp h; exact absurd rfl h
  | succ n ih =>
    intro s blk ffp
    simp only [writeLoop]
    split
    · intro h; exact absurd rfl h
    · split
      · intro h; exact absurd rfl h
      · split
        · rename_i hfound
          intro h
          exact ⟨rfl, (HnswFreeOffset_found s blk nt ffp hfound).1,
            (HnswFreeOffset_found s blk nt ffp hfound).2.1,
            (HnswFreeOffset_found s blk nt ffp hfound).2.2⟩
        · split
          · exact fun h => ih s _ _ h
          · split
            · intro h; exact absurd rfl h
            · intro h; exact absurd rfl h

theorem writeLoop_fresh (et nt : Nat) : ∀ (fuel : Nat) (s : PageStore) (blk ffp : Nat),
    (writeLoop et nt fuel s blk ffp).freeOffno = 0 →
    ((writeLoop et nt fuel s blk ffp).nbuf = (writeLoop et nt fuel s blk ffp).ebuf ∨
      (getPage (writeLoop et nt fuel s blk ffp).s
        (writeLoop et nt fuel s blk ffp).nbuf).items = []) := by
  intro fuel
  induction fuel with
  | zero => intro s blk ffp _; exact Or.inl rfl
  | succ n ih =>
    intro s blk ffp
    simp only [writeLoop]
    split
    · intro _; exact Or.inl rfl
    · split
      · intro _
        exact Or.inr (getPage_appendNew s blk)
      · split
        · rename_i hfound
          intro h
          have h2 : (HnswFreeOffset s blk nt ffp).freeOffno = 0 := h
          have := (HnswFreeOffset_found s blk nt ffp hfound).1
          omega
        · split
          · exact fun h => ih s _ _ h
          · split
            · intro _
              exact Or.inr (getPage_appendNew _ _)
            · intro _; exact Or.inl rfl

theorem writeLoop_pos (et nt : Nat) (he : 1 ≤ et) :
    ∀ (fuel : Nat) (s : PageStore) (blk ffp : Nat),
      (writeLoop et nt fuel s blk ffp).ok = true →
      (writeLoop et nt fuel s blk ffp).freeOffno = 0 →
      1 ≤ (writeLoop et nt fuel s blk ffp).ebuf ∧
      (writeLoop et nt fuel s blk ffp).ebuf ≤ (writeLoop et nt fuel s blk ffp).s.pages.length ∧
      1 ≤ (writeLoop et nt fuel s blk ffp).nbuf ∧
      (writeLoop et nt fuel s blk ffp).nbuf ≤ (writeLoop et nt fuel s blk ffp).s.pages.length := by
  intro fuel
  induction fuel with
  | zero =>
    intro s blk ffp hok _
    have h2 : (false : Bool) = true := hok
    exact absurd h2 (by decide)
  | succ n ih =>
    intro s blk ffp
    simp only [writeLoop]
    split
    · rename_i hsp
      intro _ _
      have hi : itemIdSize = 4 := rfl
      have hb := getPage_bounds_of_space s blk (by omega)
      exact ⟨hb.1, hb.2, hb.1, hb.2⟩
    · split
      · rename_i hsp
        intro _ _
        have hb := getPage_bounds_of_space s blk (by omega)
        simp only [appendPage_pages_length, appendPage_newBlk]
        exact ⟨hb.1, by omega, by omega, by omega⟩
      · split
        · rename_i hfound
          intro _ h
          have h2 : (HnswFreeOffset s blk nt ffp).freeOffno = 0 := h
          have := (HnswFreeOffset_found s blk nt ffp hfound).1
          omega
        · split
          · exact fun hok h => ih s _ _ hok h
          · split
            · intro _ _
              simp only [appendPage_pages_length, appendPage_newBlk]
              exact ⟨by omega, by omega, by omega, by omega⟩
            · intro _ _
              simp only [appendPage_pages_length, appendPage_newBlk]
              exact ⟨by omega, by omega, by omega, by omega⟩

theorem wfTids_spec (s : PageStore) (hwf : wfTids s = true) (blk off : Nat)
    (h1 : 1 ≤ blk) (h2 : blk ≤ s.pages.length)
    (hoff1 : 1 ≤ off) (hoff2 : off ≤ (getPage s blk).items.length)
    (dtup : HnswElementTuple)
    (hit : (getItem (getPage s blk) off).tup = .element dtup)
    (hdel : dtup.deleted = true) :
    1 ≤ dtup.neighbortid.blkno ∧ 1 ≤ dtup.neighbortid.offno ∧
    dtup.neighbortid.offno ≤ (getPage s dtup.neighbortid.blkno).items.length ∧
    ∃ ntp, (getItem (getPage s dtup.neighbortid.blkno) dtup.neighbortid.offno).tup =
      .neighbor ntp := by
  unfold wfTids at hwf
  rw [List.all_eq_true] at hwf
  have hpg : getPage s blk = s.pages.get ⟨blk - 1, by omega⟩ := by
    unfold getPage
    rw [if_neg (by omega), List.getD_eq_getElem _ _ (by omega)]
    rfl
  have hp := hwf (s.pages.get ⟨blk - 1, by omega⟩) (List.get_mem _ _ _)
  rw [List.all_eq_true] at hp
  have hitem : getItem (getPage s blk) off =
      (getPage s blk).items.get ⟨off - 1, by omega⟩ := by
    unfold getItem
    rw [List.getD_eq_getElem _ _ (by omega)]
    rfl
  have hmem : (getPage s blk).items.get ⟨off - 1, by omega⟩ ∈
      (s.pages.get ⟨blk - 1, by omega⟩).items := by
    rw [← hpg]
    exact List.get_mem _ _ _
  have hi := hp _ hmem
  rw [← hitem, hit] at hi
  simp only [hdel, Bool.not_true, Bool.false_or, Bool.and_eq_true, decide_eq_true_eq] at hi
  obtain ⟨⟨⟨hb1, hb2⟩, hb3⟩, hb4⟩ := hi
  refine ⟨hb1, hb2, hb3, ?_⟩
  revert hb4
  cases hcase : (getItem (getPage s dtup.neighbortid.blkno) dtup.neighbortid.offno).tup with
  | neighbor ntp => exact fun _ => ⟨ntp, rfl⟩
  | element e2 => exact fun hfalse => absurd (hfalse : false = true) Bool.false_ne_true

theorem getPage_updateCursor (s1 : PageStore) (a b c d bb : Nat) :
    getPage (updateCursor s1 a b c d) bb = getPage s1 bb := by
  unfold updateCursor
  split
  · rfl
  · rfl

theorem placeTuples_true (rs : PageStore) (ebuf nbuf offno noffno : Nat)
    (eI nI : HnswItem) :
    placeTuples rs ebuf nbuf offno noffno true eI nI =
      setPage (setPage rs ebuf (overwriteItem (getPage rs ebuf) offno eI)) nbuf
        (overwriteItem
          (getPage (setPage rs ebuf (overwriteItem (getPage rs ebuf) offno eI)) nbuf)
          noffno nI) := rfl

theorem placeTuples_false (rs : PageStore) (ebuf nbuf offno noffno : Nat)
    (eI nI : HnswItem) :
    placeTuples rs ebuf nbuf offno noffno false eI nI =
      setPage (setPage rs ebuf (addItemToPage (getPage rs ebuf) eI)) nbuf
        (addItemToPage
          (getPage (setPage rs ebuf (addItemToPage (getPage rs ebuf) eI)) nbuf) nI) := rfl

/-- C7: when the search loop reuses a tombstone (a deleted element tuple
whose neighbor tuple's page can absorb the new neighbor tuple), the write
overwrites exactly the tombstone's element and neighbor slots — page and
slot numbers of both tuples are preserved and no page gains or loses an
item; when no tombstone is reused, the write appends, and both tuples
receive fresh slot numbers past the existing items. -/
theorem claim7_tombstone_reuse (s : PageStore) (e : HnswElementTuple) (level m : Nat)
    (nbrs : Nat → List ItemPointerData) (etupSize ntupSize : Nat)
    (hwf : wfTids s = true) (het : 1 ≤ etupSize) (w : PageStore) (p : Placement)
    (heq : WriteNewElementPages s e level m nbrs etupSize ntupSize = (w, p)) :
    (p.reused = true →
      p.base = s ∧
      1 ≤ p.offno ∧ p.offno ≤ (getPage s p.blkno).items.length ∧
      (∃ dtup, (getItem (getPage s p.blkno) p.offno).tup = .element dtup ∧
        dtup.deleted = true ∧
        dtup.neighbortid = ⟨p.neighborPage, p.neighborOffno⟩) ∧
      (∀ b, (getPage w b).items.length = (getPage s b).items.length) ∧
      (getItem (getPage w p.blkno) p.offno).tup =
        .element { e with neighbortid := ItemPointerSet p.neighborPage p.neighborOffno } ∧
      (getItem (getPage w p.neighborPage) p.neighborOffno).tup =
        .neighbor (HnswSetNeighborTuple level m nbrs)) ∧
    (p.reused = false → p.ok = true →
      p.offno = (getPage p.base p.blkno).items.length + 1 ∧
      p.neighborOffno = (if p.neighborPage = p.blkno then p.offno + 1
        else (getPage p.base p.neighborPage).items.length + 1) ∧
      (getItem (getPage w p.blkno) p.offno).tup =
        .element { e with neighbortid := ItemPointerSet p.neighborPage p.neighborOffno } ∧
      (getItem (getPage w p.neighborPage) p.neighborOffno).tup =
        .neighbor (HnswSetNeighborTuple level m nbrs)) := by
  set lr := writeLoop etupSize ntupSize (s.pages.length + 1) s s.insertPage InvalidBlockNumber
    with hlr
  have hp : p = ⟨lr.s, lr.ebuf, (chooseOffs lr).1, lr.nbuf, (chooseOffs lr).2,
      lr.freeOffno != 0, lr.firstFreePage, lr.ok⟩ := by
    have h2 := congrArg Prod.snd heq
    exact h2.symm
  have hw : w = updateCursor
      (placeTuples lr.s lr.ebuf lr.nbuf (chooseOffs lr).1 (chooseOffs lr).2
        (lr.freeOffno != 0)
        ⟨etupSize, .element { e with neighbortid := ItemPointerSet lr.nbuf (chooseOffs lr).2 }⟩
        ⟨ntupSize, .neighbor (HnswSetNeighborTuple level m nbrs)⟩)
      lr.nbuf s.insertPage lr.freeOffno lr.firstFreePage := by
    have h1 := congrArg Prod.fst heq
    exact h1.symm
  subst hp
  subst hw
  simp only []
  constructor
  · intro hr
    have hfo : lr.freeOffno ≠ 0 := by simpa using hr
    obtain ⟨hbase, hge1, hle, dtup, hdt, hdel, hnb⟩ :=
      writeLoop_reuse etupSize ntupSize (s.pages.length + 1) s s.insertPage InvalidBlockNumber
        hfo
    rw [← hlr] at hbase hge1 hle hdt hnb
    have hoffs : chooseOffs lr = (lr.freeOffno, lr.freeNeighborOffno) := by
      unfold chooseOffs
      rw [if_pos hfo]
    have hflag : (lr.freeOffno != 0) = true := by simpa using hfo
    have hebl := getPage_bounds_of_items s lr.ebuf (by omega)
    obtain ⟨hn1, hn2, hn3, ntp, hntp⟩ :=
      wfTids_spec s hwf lr.ebuf lr.freeOffno hebl.1 hebl.2 hge1 hle dtup hdt hdel
    rw [hnb] at hn1 hn2 hn3 hntp
    simp only [] at hn1 hn2 hn3 hntp
    have hnbl := getPage_bounds_of_items s lr.nbuf (by omega)
    have hdistinct : lr.nbuf = lr.ebuf → lr.freeNeighborOffno ≠ lr.freeOffno := by
      intro hsame hcon
      rw [hsame, hcon] at hntp
      rw [hdt] at hntp
      exact StoredTuple.noConfusion hntp
    have hflag2 : placeTuples lr.s lr.ebuf lr.nbuf (chooseOffs lr).1 (chooseOffs lr).2
        (lr.freeOffno != 0)
        ⟨etupSize, .element { e with neighbortid := ItemPointerSet lr.nbuf (chooseOffs lr).2 }⟩
        ⟨ntupSize, .neighbor (HnswSetNeighborTuple level m nbrs)⟩ =
      placeTuples s lr.ebuf lr.nbuf lr.freeOffno lr.freeNeighborOffno true
        ⟨etupSize, .element { e with
          neighbortid := ItemPointerSet lr.nbuf lr.freeNeighborOffno }⟩
        ⟨ntupSize, .neighbor (HnswSetNeighborTuple level m nbrs)⟩ := by
      rw [hoffs, hflag, hbase]
    rw [hflag2, placeTuples_true]
    set eI : HnswItem := ⟨etupSize, .element { e with
      neighbortid := ItemPointerSet lr.nbuf lr.freeNeighborOffno }⟩ with heI
    set nI : HnswItem := ⟨ntupSize, .neighbor (HnswSetNeighborTuple level m nbrs)⟩ with hnI
    set pgE := overwriteItem (getPage s lr.ebuf) lr.freeOffno eI with hpgE
    set sA := setPage s lr.ebuf pgE with hsA
    set pgN := overwriteItem (getPage sA lr.nbuf) lr.freeNeighborOffno nI with hpgN
    have hsA_len : ∀ b, (getPage sA b).items.length = (getPage s b).items.length := by
      intro b
      rw [hsA]
      exact getPage_setPage_length s lr.ebuf pgE b (overwriteItem_length _ _ _)
    have hsA_pages : sA.pages.length = s.pages.length := by
      rw [hsA]; exact setPage_pages_length _ _ _
    have hs1_len : ∀ b, (getPage (setPage sA lr.nbuf pgN) b).items.length =
        (getPage s b).items.length := by
      intro b
      rw [getPage_setPage_length sA lr.nbuf pgN b (overwriteItem_length _ _ _)]
      exact hsA_len b
    have hgetA : getPage sA lr.ebuf = pgE := by
      rw [hsA]
      exact getPage_setPage_self s lr.ebuf pgE hebl.1 hebl.2
    have hitemE : getItem (getPage (setPage sA lr.nbuf pgN) lr.ebuf) lr.freeOffno = eI := by
      by_cases hsame : lr.nbuf = lr.ebuf
      · have hb2 : lr.nbuf ≤ sA.pages.length := by rw [hsame, hsA_pages]; exact hebl.2
        have hgetA2 : getPage sA lr.nbuf = pgE := by rw [hsame]; exact hgetA
        have hself : getPage (setPage sA lr.nbuf pgN) lr.ebuf = pgN := by
          rw [← hsame]
          exact getPage_setPage_self sA lr.nbuf pgN (by rw [hsame]; exact hebl.1) hb2
        rw [hself, hpgN, hgetA2]
        rw [getItem_overwrite_ne pgE lr.freeNeighborOffno nI lr.freeOffno hn2 hge1
          (fun hx => hdistinct hsame hx.symm)]
        rw [hpgE]
        exact getItem_overwrite_self _ _ _ hge1 hle
      · rw [getPage_setPage_ne sA lr.nbuf pgN lr.ebuf (fun hx => hsame hx.symm), hgetA, hpgE]
        exact getItem_overwrite_self _ _ _ hge1 hle
    have hitemN : getItem (getPage (setPage sA lr.nbuf pgN) lr.nbuf) lr.freeNeighborOffno =
        nI := by
      have hb2 : lr.nbuf ≤ sA.pages.length := by rw [hsA_pages]; exact hnbl.2
      rw [getPage_setPage_self sA lr.nbuf pgN hnbl.1 hb2, hpgN]
      refine getItem_overwrite_self _ _ _ hn2 ?_
      rw [hsA_len lr.nbuf]
      exact hn3
    refine ⟨hbase, ?_, ?_, ⟨dtup, ?_, hdel, ?_⟩, ?_, ?_, ?_⟩
    · rw [hoffs]; exact hge1
    · rw [hoffs]; exact hle
    · rw [hoffs]; exact hdt
    · rw [hoffs]; exact hnb
    · intro b
      rw [getPage_updateCursor]
      exact hs1_len b
    · simp only [getPage_updateCursor, hoffs]
      rw [hitemE, heI]
    · simp only [getPage_updateCursor, hoffs]
      rw [hitemN, hnI]
  · intro hr hok
    have hfo : lr.freeOffno = 0 := by simpa using hr
    have hok2 : lr.ok = true := hok
    obtain ⟨he1, he2, hnb1, hnb2⟩ :=
      writeLoop_pos etupSize ntupSize het (s.pages.length + 1) s s.insertPage
        InvalidBlockNumber hok2 hfo
    rw [← hlr] at he1 he2 hnb1 hnb2
    have hfresh := writeLoop_fresh etupSize ntupSize (s.pages.length + 1) s s.insertPage
      InvalidBlockNumber hfo
    rw [← hlr] at hfresh
    have hflag : (lr.freeOffno != 0) = false := by simp [hfo]
    have hoffs : chooseOffs lr = ((getPage lr.s lr.ebuf).items.length + 1,
        if lr.nbuf = lr.ebuf then (getPage lr.s lr.ebuf).items.length + 2
        else FirstOffsetNumber) := by
      unfold chooseOffs
      rw [if_neg (by simp [hfo])]
    have hflag2 : placeTuples lr.s lr.ebuf lr.nbuf (chooseOffs lr).1 (chooseOffs lr).2
        (lr.freeOffno != 0)
        ⟨etupSize, .element { e with neighbortid := ItemPointerSet lr.nbuf (chooseOffs lr).2 }⟩
        ⟨ntupSize, .neighbor (HnswSetNeighborTuple level m nbrs)⟩ =
      placeTuples lr.s lr.ebuf lr.nbuf (chooseOffs lr).1 (chooseOffs lr).2 false
        ⟨etupSize, .element { e with neighbortid := ItemPointerSet lr.nbuf (chooseOffs lr).2 }⟩
        ⟨ntupSize, .neighbor (HnswSetNeighborTuple level m nbrs)⟩ := by
      rw [hflag]
    rw [hflag2, placeTuples_false]
    set eI : HnswItem := ⟨etupSize, .element { e with
      neighbortid := ItemPointerSet lr.nbuf (chooseOffs lr).2 }⟩ with heI
    set nI : HnswItem := ⟨ntupSize, .neighbor (HnswSetNeighborTuple level m nbrs)⟩ with hnI
    set pgE := addItemToPage (getPage lr.s lr.ebuf) eI with hpgE
    set sA := setPage lr.s lr.ebuf pgE with hsA
    have hgetA : getPage sA lr.ebuf = pgE := by
      rw [hsA]
      exact getPage_setPage_self lr.s lr.ebuf pgE he1 he2
    have hsA_pages : sA.pages.length = lr.s.pages.length := by
      rw [hsA]; exact setPage_pages_length _ _ _
    have hitemE : getItem (getPage (setPage sA lr.nbuf (addItemToPage (getPage sA lr.nbuf) nI))
        lr.ebuf) ((getPage lr.s lr.ebuf).items.length + 1) = eI := by
      by_cases hsame : lr.nbuf = lr.ebuf
      · have hb2 : lr.nbuf ≤ sA.pages.length := by rw [hsame, hsA_pages]; exact he2
        have hgetA2 : getPage sA lr.nbuf = pgE := by rw [hsame]; exact hgetA
        have hself : getPage (setPage sA lr.nbuf (addItemToPage (getPage sA lr.nbuf) nI))
            lr.ebuf = addItemToPage (getPage sA lr.nbuf) nI := by
          rw [← hsame]
          exact getPage_setPage_self sA lr.nbuf _ (by rw [hsame]; exact he1) hb2
        rw [hself, hgetA2]
        rw [getItem_addItem_old pgE nI ((getPage lr.s lr.ebuf).items.length + 1) (by omega)
          (by rw [hpgE, addItem_length])]
        rw [hpgE]
        exact getItem_addItem_last _ _
      · rw [getPage_setPage_ne sA lr.nbuf _ lr.ebuf (fun hx => hsame hx.symm), hgetA, hpgE]
        exact getItem_addItem_last _ _
    have hitemN : getItem (getPage (setPage sA lr.nbuf (addItemToPage (getPage sA lr.nbuf) nI))
        lr.nbuf) (if lr.nbuf = lr.ebuf then (getPage lr.s lr.ebuf).items.length + 2
          else FirstOffsetNumber) = nI := by
      have hb2 : lr.nbuf ≤ sA.pages.length := by rw [hsA_pages]; exact hnb2
      rw [getPage_setPage_self sA lr.nbuf _ hnb1 hb2]
      by_cases hsame : lr.nbuf = lr.ebuf
      · rw [if_pos hsame]
        have hgetA2 : getPage sA lr.nbuf = pgE := by rw [hsame]; exact hgetA
        rw [hgetA2]
        have hlen2 : (getPage lr.s lr.ebuf).items.length + 2 = pgE.items.length + 1 := by
          rw [hpgE, addItem_length]
        rw [hlen2]
        exact getItem_addItem_last _ _
      · rw [if_neg hsame]
        have hempty : (getPage sA lr.nbuf).items = [] := by
          rw [hsA, getPage_setPage_ne lr.s lr.ebuf pgE lr.nbuf hsame]
          rcases hfresh with hcon | hemp
          · exact absurd hcon hsame
          · exact hemp
        have hone : FirstOffsetNumber = (getPage sA lr.nbuf).items.length + 1 := by
          rw [hempty]
          rfl
        rw [hone]
        exact getItem_addItem_last _ _
    refine ⟨?_, ?_, ?_, ?_⟩
    · rw [hoffs]
    · rw [hoffs]
      by_cases hsame : lr.nbuf = lr.ebuf
      · rw [if_pos hsame, if_pos hsame]
      · rw [if_neg hsame, if_neg hsame]
        have hempty : (getPage lr.s lr.nbuf).items = [] := by
          rcases hfresh with hcon | hemp
          · exact absurd hcon hsame
          · exact hemp
        rw [hempty]
        rfl
    · simp only [getPage_updateCursor, hoffs]
      rw [hitemE, heI]
      simp only [hoffs]
    · simp only [getPage_updateCursor, hoffs]
      rw [hitemN, hnI]

end HnswInsert

namespace HnswInsert

/-- C7 witness: the tombstone in `w7Store` is reused; the new element lands
exactly on the tombstone's element and neighbor slots. -/
theorem claim7_witness :
    wfTids w7Store = true ∧
    (1 : Nat) ≤ 30 ∧
    WriteNewElementPages w7Store w7New 0 1 (fun _ => []) 30 38 = (w7Run.1, w7Run.2) ∧
    w7Run.2.reused = true ∧
    w7Run.2.base = w7Store ∧
    (∃ dtup, (getItem (getPage w7Store w7Run.2.blkno) w7Run.2.offno).tup = .element dtup ∧
      dtup.deleted = true ∧
      dtup.neighbortid = ⟨w7Run.2.neighborPage, w7Run.2.neighborOffno⟩) ∧
    (getItem (getPage w7Run.1 w7Run.2.blkno) w7Run.2.offno).tup =
      .element { w7New with
        neighbortid := ItemPointerSet w7Run.2.neighborPage w7Run.2.neighborOffno } := by
  have h := (claim7_tombstone_reuse w7Store w7New 0 1 (fun _ => []) 30 38
    (by decide) (by decide) w7Run.1 w7Run.2 rfl).1 (by decide)
  exact ⟨by decide, by decide, rfl, by decide, h.1, h.2.2.2.1, h.2.2.2.2.2.1⟩

end HnswInsert
